import Mathlib

/-!
Verification development for the chroma-rs repository (a Rust HTTP client for
the Chroma vector database).  The Rust source in `src/client.rs` is shallowly
embedded: the HTTP transport is modelled as a function from requests to
responses, the `url` crate's URL construction is modelled at the character
level, and each public operation of `ChromaClient` is translated into a pure
Lean function that returns both the list of HTTP requests it issued and its
result.
-/

namespace Chroma

/-! ## JSON values

Model of `serde_json::Value`.  Response bodies are modelled as the JSON value
carried by the wire text; `Json.render` gives the corresponding wire text (as
returned by `reqwest::Response::text`).  Numbers are modelled as integers,
which covers every numeric shape the client's decoders accept (`u64`).
-/

inductive Json where
  | null : Json
  | bool : Bool → Json
  | num : Int → Json
  | str : String → Json
  | arr : List Json → Json
  | obj : List (String × Json) → Json
deriving Repr

/-- Minimal JSON string escaping (quote and backslash), used by `Json.render`. -/
def escapeChar (c : Char) : List Char :=
  if c = '\"' then ['\\', '\"']
  else if c = '\\' then ['\\', '\\']
  else [c]

def escapeStr (s : String) : String :=
  String.mk (s.toList.flatMap escapeChar)

mutual

/-- Wire text of a JSON value (model of `serde_json` serialization). -/
def Json.render : Json → String
  | Json.null => "null"
  | Json.bool b => if b then "true" else "false"
  | Json.num n => toString n
  | Json.str s => "\"" ++ escapeStr s ++ "\""
  | Json.arr xs => "[" ++ Json.renderList xs ++ "]"
  | Json.obj fs => "\x7b" ++ Json.renderObj fs ++ "\x7d"

def Json.renderList : List Json → String
  | [] => ""
  | [x] => Json.render x
  | x :: xs => Json.render x ++ "," ++ Json.renderList xs

def Json.renderObj : List (String × Json) → String
  | [] => ""
  | [(k, v)] => "\"" ++ escapeStr k ++ "\":" ++ Json.render v
  | (k, v) :: fs => "\"" ++ escapeStr k ++ "\":" ++ Json.render v ++ "," ++ Json.renderObj fs

end

/-- Field access as performed by a `serde` derived struct deserializer: a
required field must appear exactly once (serde rejects duplicate fields and
reports missing ones). -/
def getFieldStrict (fs : List (String × Json)) (k : String) : Except String Json :=
  match fs.filter (fun p => p.1 == k) with
  | [p] => Except.ok p.2
  | [] => Except.error ("missing field " ++ k)
  | _ => Except.error ("duplicate field " ++ k)

/-- Optional (`Option<...>`) field access of a serde derived deserializer:
a missing field or a JSON `null` yields `none`. -/
def getFieldOpt (fs : List (String × Json)) (k : String) : Except String (Option Json) :=
  match fs.filter (fun p => p.1 == k) with
  | [] => Except.ok none
  | [(_, Json.null)] => Except.ok none
  | [(_, v)] => Except.ok (some v)
  | _ => Except.error ("duplicate field " ++ k)

def jsonAsString : Json → Except String String
  | Json.str s => Except.ok s
  | _ => Except.error "invalid type: expected a string"

/-- Decoding of a `u64` field (serde rejects numbers outside `u64` range). -/
def jsonAsU64 : Json → Except String Nat
  | Json.num n =>
      if 0 ≤ n ∧ n < (2 : Int) ^ 64 then Except.ok n.toNat
      else Except.error "invalid value: integer out of range for u64"
  | _ => Except.error "invalid type: expected an integer"

/-- True when the JSON value is an object with no field named `k`
(the interesting hypothesis of the missing-field claims). -/
def Json.isObjWithout (j : Json) (k : String) : Bool :=
  match j with
  | Json.obj fs => fs.all (fun p => p.1 != k)
  | _ => false

/-- Replace the value stored at key `k` of a JSON object (identity elsewhere). -/
def Json.setField (k : String) (v : Json) : Json → Json
  | Json.obj fs => Json.obj (fs.map (fun p => if p.1 == k then (p.1, v) else p))
  | j => j

/-! ## Headers

Model of `reqwest::header::HeaderMap` as an association list.  Header names
are stored in their canonical lower-case form (the `HeaderName` invariant),
and `insert` replaces the value of an existing header, as
`HeaderMap::insert` does.  Header values are modelled as strings; in the
Rust source every caller-supplied map already contains validated
`HeaderValue`s, and the only values inserted by the client itself are the
constant `"application/json"` (whose `parse().unwrap()` can never panic).
-/

abbrev HeaderMap := List (String × String)

def HeaderMap.insert (m : HeaderMap) (k v : String) : HeaderMap :=
  if (List.any m (fun p => p.1 == k)) then
    List.map (fun p : String × String => if p.1 == k then (k, v) else p) m
  else m ++ [(k, v)]

def HeaderMap.get (m : HeaderMap) (k : String) : Option String :=
  (List.find? (fun p => p.1 == k) m).map (fun p => p.2)

/-! ## Errors

`ChromaClientError` is declared in `src/error.rs`, which is not part of the
sources provided; the variants below are exactly the ones constructed in
`src/client.rs`.  Underlying `reqwest`/`serde_json`/`url` error payloads are
modelled as their display strings. -/

inductive ChromaClientError where
  /-- Modelled from the spec: `ConfigurationError` (bad client construction
  input) is listed in the spec's error taxonomy but never constructed
  anywhere in `src/client.rs`. -/
  | ConfigurationError : String → ChromaClientError
  | UrlParseError : String → ChromaClientError
  | PreflightError : String → ChromaClientError
  | RequestError : String → ChromaClientError
  | ResponseStatusError : String → ChromaClientError
  | ResponseParseError : String → ChromaClientError
  | ResponseError : String → ChromaClientError
deriving DecidableEq, Repr

/-- The six error kinds named by the spec's taxonomy (`UrlError` being the
source's `UrlParseError`).  `ResponseError`, which `src/client.rs` raises
when reading a response body fails, is not one of them. -/
def inSixTaxonomy : ChromaClientError → Bool
  | ChromaClientError.ResponseError _ => false
  | _ => true

/-- Error kinds a client operation can actually produce: everything except
`ConfigurationError`. -/
def usedKind : ChromaClientError → Bool
  | ChromaClientError.ConfigurationError _ => false
  | _ => true

def isResponseParseError : ChromaClientError → Bool
  | ChromaClientError.ResponseParseError _ => true
  | _ => false

/-- True exactly when an operation result is a `ResponseParseError` failure. -/
def resultIsParseError {α : Type} : Except ChromaClientError α → Bool
  | Except.error (ChromaClientError.ResponseParseError _) => true
  | _ => false

/-- All characters of a string are ASCII. -/
def asciiStr (s : String) : Bool := s.toList.all (fun c => c.toNat < 128)

/-! ## URLs

Model of the `url` crate (WHATWG URL parsing) restricted to what the client
exercises: absolute `http`/`https` URLs with a host, an optional port, a
path, a query and a fragment, plus `Url::parse_with_params` appending
form-urlencoded pairs to the query.  Simplifications (documented here, none
of them reachable from the inputs the theorems below examine): userinfo
(`user@host`), IPv6 bracket hosts, IDNA/lower-casing of hosts and exotic
code points of the WHATWG encode sets are not modelled; a URL that would
need them is rejected or passed through unchanged. -/

/-- Upper-case hex digit of a value below 16. -/
def hexU (d : Nat) : Char :=
  if d < 10 then Char.ofNat (48 + d) else Char.ofNat (55 + d)

/-- Percent-encoding of one byte, upper-case hex as the `url` crate emits. -/
def pctByte (b : Nat) : List Char := ['%', hexU (b / 16), hexU (b % 16)]

/-- UTF-8 bytes of a character. -/
def utf8Bytes (c : Char) : List Nat :=
  let n := c.toNat
  if n < 128 then [n]
  else if n < 2048 then [192 + n / 64, 128 + n % 64]
  else if n < 65536 then [224 + n / 4096, 128 + (n / 64) % 64, 128 + n % 64]
  else [240 + n / 262144, 128 + (n / 4096) % 64, 128 + (n / 64) % 64, 128 + n % 64]

/-- Characters percent-encoded inside a path segment (WHATWG path
percent-encode set: C0 controls, space, `"`, `<`, `>`, backtick, braces,
DEL and non-ASCII). -/
def pathEncNeeded (c : Char) : Bool :=
  c.toNat < 33 || c.toNat > 126 || c = '\"' || c = '<' || c = '>' ||
  c = Char.ofNat 96 || c = Char.ofNat 123 || c = Char.ofNat 125

def pathEncChar (c : Char) : List Char :=
  if pathEncNeeded c then (utf8Bytes c).flatMap pctByte else [c]

def pathEncSeg (s : List Char) : List Char := s.flatMap pathEncChar

/-- Characters percent-encoded in the query of a special-scheme URL
(C0 controls, space, `"`, `#`, `<`, `>`, `'`, DEL and non-ASCII). -/
def queryEncNeeded (c : Char) : Bool :=
  c.toNat < 33 || c.toNat > 126 || c = '\"' || c = '#' || c = '<' || c = '>' || c = '\''

def queryEncChar (c : Char) : List Char :=
  if queryEncNeeded c then (utf8Bytes c).flatMap pctByte else [c]

/-- Characters percent-encoded in a fragment. -/
def fragEncNeeded (c : Char) : Bool :=
  c.toNat < 33 || c.toNat > 126 || c = '\"' || c = '<' || c = '>' || c = Char.ofNat 96

def fragEncChar (c : Char) : List Char :=
  if fragEncNeeded c then (utf8Bytes c).flatMap pctByte else [c]

/-- Characters kept verbatim by `application/x-www-form-urlencoded`
serialization (as used by `Url::parse_with_params`): ASCII alphanumerics
and `*`, `-`, `.`, `_`. -/
def formSafe (c : Char) : Bool :=
  (48 ≤ c.toNat && c.toNat ≤ 57) || (65 ≤ c.toNat && c.toNat ≤ 90) ||
  (97 ≤ c.toNat && c.toNat ≤ 122) || c = '*' || c = '-' || c = '.' || c = '_'

def formEncodeChar (c : Char) : List Char :=
  if formSafe c then [c]
  else if c = ' ' then ['+']
  else (utf8Bytes c).flatMap pctByte

def formEncode (s : List Char) : List Char := s.flatMap formEncodeChar

def formEncodeStr (s : String) : String := String.mk (formEncode s.toList)

/-- ASCII decimal digit. -/
def isDigitB (c : Char) : Bool := 48 ≤ c.toNat && c.toNat ≤ 57

def isHexDigitChar (c : Char) : Bool :=
  isDigitB c || (65 ≤ c.toNat && c.toNat ≤ 70) || (97 ≤ c.toNat && c.toNat ≤ 102)

def hexVal (c : Char) : Nat :=
  if isDigitB c then c.toNat - 48
  else if 65 ≤ c.toNat && c.toNat ≤ 70 then c.toNat - 55
  else c.toNat - 87

/-- Form-urlencoded decoding as `Url::query_pairs` performs it: `+` becomes
space, `%XY` becomes the byte `XY`.  Decoding is modelled bytewise; it
agrees with the crate's UTF-8-aware decoder on ASCII data, which is all the
round-trip theorems below quantify over. -/
def formDecodeF : Nat → List Char → List Char
  | _, [] => []
  | 0, cs => cs
  | fuel + 1, c :: rest =>
    if c = '+' then ' ' :: formDecodeF fuel rest
    else if c = '%' then
      match rest with
      | h1 :: h2 :: rest2 =>
        if isHexDigitChar h1 && isHexDigitChar h2 then
          Char.ofNat (16 * hexVal h1 + hexVal h2) :: formDecodeF fuel rest2
        else '%' :: formDecodeF fuel (h1 :: h2 :: rest2)
      | _ => '%' :: formDecodeF fuel rest
    else c :: formDecodeF fuel rest

def formDecode (cs : List Char) : List Char := formDecodeF cs.length cs

/-- Strip an expected leading run of characters. -/
def dropLead : List Char → List Char → Option (List Char)
  | [], s => some s
  | _ :: _, [] => none
  | p :: pre, c :: s => if c = p then dropLead pre s else none

def httpChars : List Char := ['h', 't', 't', 'p', ':', '/', '/']

def httpsChars : List Char := ['h', 't', 't', 'p', 's', ':', '/', '/']

def schemeSplit (cs : List Char) : Option (String × List Char) :=
  match dropLead httpsChars cs with
  | some rest => some ("https", rest)
  | none =>
    match dropLead httpChars cs with
    | some rest => some ("http", rest)
    | none => none

/-- Characters terminating the authority of a special-scheme URL. -/
def authDelim (c : Char) : Bool :=
  c = '/' || c = '\\' || c = '?' || c = '#'

/-- Forbidden host code points (WHATWG), which make parsing fail. -/
def forbiddenHostChar (c : Char) : Bool :=
  c.toNat < 33 || c = '#' || c = '/' || c = ':' || c = '<' || c = '>' ||
  c = '?' || c = '@' || c = '[' || c = '\\' || c = ']' || c = '^' || c = '|'

/-- Split an authority at its last colon (host on the left, port on the
right); no colon means no port. -/
def splitLastColon (cs : List Char) : List Char × Option (List Char) :=
  if cs.contains ':' then
    let r := cs.reverse
    (((r.dropWhile (fun c => c ≠ ':')).drop 1).reverse,
     some (r.takeWhile (fun c => c ≠ ':')).reverse)
  else (cs, none)

def parseDigitsAcc : Nat → List Char → Option Nat
  | acc, [] => some acc
  | acc, c :: cs =>
    if isDigitB c then parseDigitsAcc (10 * acc + (c.toNat - 48)) cs else none

/-- Validate and canonicalize a non-empty port string: digits only, value at
most 65535, leading zeros stripped, and the scheme's default port elided
(the `url` crate stores and serializes ports this way). -/
def canonPortStr (scheme : String) (ds : List Char) : Except String (Option String) :=
  let ds1 := ds.dropWhile (fun c => c = '0')
  let ds2 := if ds1 = [] then ['0'] else ds1
  match parseDigitsAcc 0 ds2 with
  | none => Except.error "invalid port number"
  | some n =>
    if n > 65535 then Except.error "invalid port number"
    else if (scheme = "http" && n = 80) || (scheme = "https" && n = 443) then Except.ok none
    else Except.ok (some (String.mk ds2))

def parseAuthority (scheme : String) (auth : List Char) : Except String (String × Option String) :=
  if auth = [] then Except.error "empty host"
  else
    let hp := splitLastColon auth
    if hp.1 = [] then Except.error "empty host"
    else if hp.1.any forbiddenHostChar then Except.error "invalid domain character"
    else
      match hp.2 with
      | none => Except.ok (String.mk hp.1, none)
      | some [] => Except.ok (String.mk hp.1, none)
      | some ds =>
        match canonPortStr scheme ds with
        | Except.error e => Except.error e
        | Except.ok po => Except.ok (String.mk hp.1, po)

/-- Split at the first occurrence of `sep`: the part before it, and
(when present) the part after it. -/
def splitFirstChar (sep : Char) (cs : List Char) : List Char × Option (List Char) :=
  (cs.takeWhile (fun c => c ≠ sep),
   if cs.contains sep then some ((cs.dropWhile (fun c => c ≠ sep)).drop 1) else none)

def consHead (c : Char) : List (List Char) → List (List Char)
  | [] => [[c]]
  | s :: ss => (c :: s) :: ss

/-- Split path characters into segments at `/` and `\` (WHATWG treats a
backslash like a slash in special-scheme URLs). -/
def splitSegs : List Char → List (List Char)
  | [] => [[]]
  | c :: rest =>
    if c = '/' || c = '\\' then [] :: splitSegs rest else consHead c (splitSegs rest)

def isSingleDotSeg (s : List Char) : Bool :=
  s = ['.'] || s = ['%', '2', 'e'] || s = ['%', '2', 'E']

def isDoubleDotSeg (s : List Char) : Bool :=
  s = ['.', '.'] ||
  s = ['.', '%', '2', 'e'] || s = ['.', '%', '2', 'E'] ||
  s = ['%', '2', 'e', '.'] || s = ['%', '2', 'E', '.'] ||
  s = ['%', '2', 'e', '%', '2', 'e'] || s = ['%', '2', 'e', '%', '2', 'E'] ||
  s = ['%', '2', 'E', '%', '2', 'e'] || s = ['%', '2', 'E', '%', '2', 'E']

/-- WHATWG dot-segment removal: `..` pops a segment, `.` is dropped, and a
trailing dot segment leaves a trailing empty segment (trailing slash). -/
def removeDotSegs (acc : List (List Char)) : List (List Char) → List (List Char)
  | [] => acc.reverse
  | s :: rest =>
    match rest with
    | [] =>
      if isDoubleDotSeg s then (acc.drop 1).reverse ++ [[]]
      else if isSingleDotSeg s then acc.reverse ++ [[]]
      else (s :: acc).reverse
    | _ :: _ =>
      removeDotSegs
        (if isDoubleDotSeg s then acc.drop 1
         else if isSingleDotSeg s then acc
         else s :: acc) rest

/-- Parsed URL: scheme, host, canonical optional port, percent-encoded path
segments, percent-encoded raw query and fragment. -/
structure Url where
  scheme : String
  host : String
  port : Option String
  path : List String
  query : Option String
  fragment : Option String
deriving DecidableEq, Repr

/-- The part of URL parsing that follows the scheme: authority, then path,
query and fragment. -/
def parseAfterScheme (scheme : String) (rest : List Char) : Except String Url :=
  let auth := rest.takeWhile (fun c => !authDelim c)
  let rest2 := rest.dropWhile (fun c => !authDelim c)
  match parseAuthority scheme auth with
  | Except.error e => Except.error e
  | Except.ok hp =>
    let pqf := splitFirstChar '#' rest2
    let pq := splitFirstChar '?' pqf.1
    let segsRaw : List (List Char) :=
      match pq.1 with
      | [] => [[]]
      | _ :: ps => splitSegs ps
    Except.ok
      ⟨scheme, hp.1, hp.2,
       (removeDotSegs [] (segsRaw.map pathEncSeg)).map (fun l => String.mk l),
       pq.2.map (fun qc => String.mk (qc.flatMap queryEncChar)),
       pqf.2.map (fun fc => String.mk (fc.flatMap fragEncChar))⟩

def parseUrlChars (cs : List Char) : Except String Url :=
  match schemeSplit cs with
  | none => Except.error "relative URL without a base"
  | some sr => parseAfterScheme sr.1 sr.2

/-- Model of `url::Url::parse`. -/
def parseUrl (s : String) : Except String Url := parseUrlChars s.toList

def joinSegsChars : List (List Char) → List Char
  | [] => []
  | s :: ss =>
    match ss with
    | [] => s
    | _ :: _ => s ++ '/' :: joinSegsChars ss

def portChars : Option String → List Char
  | none => []
  | some p => ':' :: p.toList

def queryChars : Option String → List Char
  | none => []
  | some q => '?' :: q.toList

def fragChars : Option String → List Char
  | none => []
  | some f => '#' :: f.toList

/-- Serialization of a URL (`Url::as_str`). -/
def Url.serialize (u : Url) : String :=
  String.mk
    (u.scheme.toList ++ [':', '/', '/'] ++ u.host.toList ++ portChars u.port ++
     '/' :: joinSegsChars (u.path.map String.toList) ++
     queryChars u.query ++ fragChars u.fragment)

/-- Split a query string at `&`, dropping empty pieces, as
`form_urlencoded::parse` does. -/
def splitAmp : List Char → List (List Char)
  | [] => [[]]
  | c :: rest =>
    if c = '&' then [] :: splitAmp rest
    else
      match splitAmp rest with
      | [] => [[c]]
      | s :: ss => (c :: s) :: ss

def pairOfPiece (piece : List Char) : String × String :=
  let k := piece.takeWhile (fun c => c ≠ '=')
  let rest := piece.dropWhile (fun c => c ≠ '=')
  (String.mk (formDecode k), String.mk (formDecode (rest.drop 1)))

/-- Model of `Url::query_pairs`: the decoded key/value pairs of the query. -/
def Url.queryPairs (u : Url) : List (String × String) :=
  match u.query with
  | none => []
  | some q => ((splitAmp q.toList).filter (fun p => p ≠ [])).map pairOfPiece

def pairsEncChars : List (String × String) → List Char
  | [] => []
  | (k, v) :: rest =>
    match rest with
    | [] => formEncode k.toList ++ '=' :: formEncode v.toList
    | _ :: _ =>
      formEncode k.toList ++ '=' :: formEncode v.toList ++ '&' :: pairsEncChars rest

/-- The form-urlencoded serialization of a list of pairs, `k=v` joined
with `&`. -/
def pairsEncode (ps : List (String × String)) : String := String.mk (pairsEncChars ps)

/-- Appending form-urlencoded pairs to an existing query, as
`Url::parse_with_params` (via `query_pairs_mut().extend_pairs`) does. -/
def appendPairsQ : Option String → List (String × String) → String
  | none, ps => pairsEncode ps
  | some q, ps => if q = "" then pairsEncode ps else q ++ "&" ++ pairsEncode ps

/-- The canonical port stored for a parsed `scheme://host:port` origin
(leading zeros stripped, default port elided), as the `url` crate keeps it. -/
def canonPort (scheme port : String) : Option String :=
  match canonPortStr scheme port.toList with
  | Except.ok o => o
  | Except.error _ => none

/-- The path segments the URL parser produces for the path characters after
`scheme://host:port/`. -/
def relSegsChars (cs : List Char) : List String :=
  (removeDotSegs [] ((splitSegs cs).map pathEncSeg)).map (fun l => String.mk l)

/-- The path segments the URL parser produces for the part after
`scheme://host:port/`. -/
def relSegs (rel : String) : List String := relSegsChars rel.toList

/-- Characters allowed by `hostOk`: ASCII lower-case letters, digits,
`-` and `.`. -/
def hostChar (c : Char) : Bool :=
  (97 ≤ c.toNat && c.toNat ≤ 122) || (48 ≤ c.toNat && c.toNat ≤ 57) ||
  c = '-' || c = '.'

/-- Well-formed host for the URL model: non-empty, ASCII-lower-case letters,
digits, `-` and `.` only (the shape every real host the client is pointed
at has). -/
def hostOk (h : String) : Bool :=
  h ≠ "" && h.toList.all hostChar

/-- Well-formed port string: non-empty digits, no leading zero (except "0"
itself), value at most 65535. -/
def portOk (p : String) : Bool :=
  p ≠ "" && p.toList.all isDigitB &&
  (p = "0" || p.toList.headD '0' ≠ '0') &&
  (parseDigitsAcc 0 p.toList).getD 65536 ≤ 65535

/-- Relative paths that contain no query or fragment delimiter. -/
def relOk (rel : String) : Bool :=
  rel.toList.all (fun c => c ≠ '?' && c ≠ '#')

/-- The URL the scoped builder produces for a well-formed origin and
relative path: scheme from the ssl flag, canonical port, parsed path
segments, and the context's tenant/database as form-urlencoded query. -/
def scopedUrl (ssl : Bool) (host port rel tenant db : String) : Url :=
  ⟨if ssl then "https" else "http", host,
   canonPort (if ssl then "https" else "http") port, relSegs rel,
   some (pairsEncode [("tenant", tenant), ("database", db)]), none⟩

/-! ## Transport

The HTTP transport (`reqwest`) is an external collaborator.  A `Transport`
answers each request with either a send failure (mapped by the client to
`RequestError`) or a response carrying a status code and a body; reading
the body (`Response::text`) can itself fail (mapped to `ResponseError`),
so the body slot is an `Except`.  A successfully read body is modelled as
the JSON value whose rendering is the wire text. -/

inductive Method where
  | GET : Method
  | POST : Method
  | DELETE : Method
deriving DecidableEq, Repr

structure Request where
  method : Method
  url : Url
  headers : HeaderMap
  body : Option Json
deriving Repr

structure HttpResponse where
  status : Nat
  body : Except String Json
deriving Repr

/-- Apply a function to the body of a request, leaving method, URL and
headers unchanged. -/
def Request.mapBody (f : Json → Json) (r : Request) : Request :=
  ⟨r.method, r.url, r.headers, r.body.map f⟩

def Transport := Request → Except String HttpResponse

/-- `StatusCode::is_success`: the 2xx class. -/
def statusIsSuccess (n : Nat) : Bool := 200 ≤ n && n < 300

/-! ## Client data (src/client.rs lines 10-35 and 306-340) -/

structure Settings where
  tenant : String
  database : String

def Settings.default : Settings := ⟨"default_tenant", "default_database"⟩

structure ChromaClientParams where
  host : String
  port : String
  ssl : Bool
  headers : Option HeaderMap
  settings : Option Settings

def ChromaClientParams.default : ChromaClientParams :=
  ⟨"localhost", "8000", false, none, some Settings.default⟩

/-- The client value; the `reqwest::Client` field holds no observable state
and is omitted. -/
structure ChromaClient where
  path : String
  headers : HeaderMap
  tenant : String
  database : String

/-- `ChromaClient::new` (src/client.rs lines 22-35).  Total: the only
fallible step in the source is `"application/json".parse().unwrap()`, which
parses a constant, always-valid header value. -/
def ChromaClient.new (params : ChromaClientParams) : ChromaClient :=
  let http := if params.ssl then "https" else "http"
  let headers := (params.headers.getD []).insert "accept" "application/json"
  let settings := params.settings.getD Settings.default
  ⟨http ++ "://" ++ params.host ++ ":" ++ params.port, headers,
   settings.tenant, settings.database⟩

/-! ## Response shapes (src/client.rs lines 342-365; Collection from
src/collection.rs, which is not part of the provided sources) -/

structure HeartbeatResponse where
  nanosecond_heartbeat : Nat

/-- serde decoder of `HeartbeatResponse` (field renamed to
"nanosecond heartbeat", src/client.rs lines 342-346). -/
def HeartbeatResponse.from_json : Json → Except String HeartbeatResponse
  | Json.obj fs =>
    match getFieldStrict fs "nanosecond heartbeat" with
    | Except.error e => Except.error e
    | Except.ok v =>
      match jsonAsU64 v with
      | Except.error e => Except.error e
      | Except.ok n => Except.ok ⟨n⟩
  | _ => Except.error "invalid type: expected a map"

structure CreateCollectionRequest where
  name : String
  metadata : Option (List (String × String))
  get_or_create : Bool

def metadataJson : Option (List (String × String)) → Json
  | none => Json.null
  | some m => Json.obj (m.map (fun p => (p.1, Json.str p.2)))

/-- serde serialization of `CreateCollectionRequest` (fields in declaration
order; a `None` metadata serializes as `null`). -/
def CreateCollectionRequest.toJson (r : CreateCollectionRequest) : Json :=
  Json.obj
    [("name", Json.str r.name),
     ("metadata", metadataJson r.metadata),
     ("get_or_create", Json.bool r.get_or_create)]

structure CreateCollectionResponse where
  name : String
  id : String
  metadata : Option Json
  tenant : String
  database : String

def requiredString (fs : List (String × Json)) (k : String) : Except String String :=
  match getFieldStrict fs k with
  | Except.error e => Except.error e
  | Except.ok v => jsonAsString v

/-- serde decoder of `CreateCollectionResponse` (src/client.rs lines
355-362): `name`, `id`, `tenant`, `database` are required strings,
`metadata` is an optional JSON value. -/
def CreateCollectionResponse.from_json : Json → Except String CreateCollectionResponse
  | Json.obj fs =>
    match requiredString fs "name" with
    | Except.error e => Except.error e
    | Except.ok name =>
      match requiredString fs "id" with
      | Except.error e => Except.error e
      | Except.ok id =>
        match getFieldOpt fs "metadata" with
        | Except.error e => Except.error e
        | Except.ok md =>
          match requiredString fs "tenant" with
          | Except.error e => Except.error e
          | Except.ok tenant =>
            match requiredString fs "database" with
            | Except.error e => Except.error e
            | Except.ok database => Except.ok ⟨name, id, md, tenant, database⟩
  | _ => Except.error "invalid type: expected a map"

/-- Modelled from the spec: the `Collection` struct lives in
`src/collection.rs`, which is missing from the provided sources.  Its fields
are fully determined by its uses in `src/client.rs` (construction at lines
128-132 from `name`/`id`/`metadata`, tests at lines 395-399): `name`, `id`
and an optional metadata value. -/
structure Collection where
  name : String
  id : String
  metadata : Option Json

/-- Modelled from the spec: the derived serde decoder of `Collection`
(required `name` and `id`, optional `metadata`), used by `get_collection`
and `list_collections`. -/
def Collection.from_json : Json → Except String Collection
  | Json.obj fs =>
    match requiredString fs "name" with
    | Except.error e => Except.error e
    | Except.ok name =>
      match requiredString fs "id" with
      | Except.error e => Except.error e
      | Except.ok id =>
        match getFieldOpt fs "metadata" with
        | Except.error e => Except.error e
        | Except.ok md => Except.ok ⟨name, id, md⟩
  | _ => Except.error "invalid type: expected a map"

/-- Element-wise decoding of `ListCollectionsResponse = Vec<Collection>`. -/
def decodeCollections : List Json → Except String (List Collection)
  | [] => Except.ok []
  | j :: js =>
    match Collection.from_json j with
    | Except.error e => Except.error e
    | Except.ok c =>
      match decodeCollections js with
      | Except.error e => Except.error e
      | Except.ok cs => Except.ok (c :: cs)

def listCollectionsFromJson : Json → Except String (List Collection)
  | Json.arr xs => decodeCollections xs
  | _ => Except.error "invalid type: expected a sequence"

/-! ## Operations

Each operation returns the list of requests it handed to the transport
(in order) together with its result, mirroring `src/client.rs` line by
line.  A status code is rendered as its decimal number where the source
formats a `StatusCode` (the source additionally prints the canonical
reason phrase). -/

def OpResult (α : Type) := List Request × Except ChromaClientError α

/-- `ChromaClient::check_pre_flight_status` (src/client.rs lines 37-52).
The source passes the URL string straight to `reqwest`, which parses it at
send time: a malformed URL surfaces as a `RequestError`, before any request
is issued. -/
def ChromaClient.check_pre_flight_status (t : Transport) (c : ChromaClient) : OpResult Unit :=
  match parseUrl (c.path ++ "/api/v1/pre-flight-checks") with
  | Except.error e => ([], Except.error (ChromaClientError.RequestError e))
  | Except.ok u =>
    let req : Request := ⟨Method.GET, u, c.headers, none⟩
    ([req],
     match t req with
     | Except.error e => Except.error (ChromaClientError.RequestError e)
     | Except.ok res =>
       if statusIsSuccess res.status then Except.ok ()
       else
         Except.error
           (ChromaClientError.PreflightError
             ("Preflight request failed, status: " ++ toString res.status)))

/-- `ChromaClient::get_url` (src/client.rs lines 54-56). -/
def ChromaClient.get_url (c : ChromaClient) (path : String) : Except ChromaClientError Url :=
  match parseUrl (c.path ++ "/" ++ path) with
  | Except.error e => Except.error (ChromaClientError.UrlParseError e)
  | Except.ok u => Except.ok u

/-- `ChromaClient::get_url_with_params` (src/client.rs lines 58-67):
`Url::parse_with_params` with the client's tenant and database. -/
def ChromaClient.get_url_with_params (c : ChromaClient) (path : String) :
    Except ChromaClientError Url :=
  match parseUrl (c.path ++ "/" ++ path) with
  | Except.error e => Except.error (ChromaClientError.UrlParseError e)
  | Except.ok u =>
    Except.ok
      ⟨u.scheme, u.host, u.port, u.path,
       some (appendPairsQ u.query [("tenant", c.tenant), ("database", c.database)]),
       u.fragment⟩

/-- `ChromaClient::heartbeat` (src/client.rs lines 70-91).  Note: the
source never inspects the response status here; it decodes the body
unconditionally. -/
def ChromaClient.heartbeat (t : Transport) (c : ChromaClient) : OpResult Nat :=
  match ChromaClient.check_pre_flight_status t c with
  | (plog, Except.error e) => (plog, Except.error e)
  | (plog, Except.ok ()) =>
    match ChromaClient.get_url c "api/v1/heartbeat" with
    | Except.error e => (plog, Except.error e)
    | Except.ok url =>
      let req : Request := ⟨Method.GET, url, c.headers, none⟩
      (plog ++ [req],
       match t req with
       | Except.error e => Except.error (ChromaClientError.RequestError e)
       | Except.ok res =>
         match res.body with
         | Except.error e => Except.error (ChromaClientError.ResponseError e)
         | Except.ok j =>
           match HeartbeatResponse.from_json j with
           | Except.error e => Except.error (ChromaClientError.ResponseParseError e)
           | Except.ok hb => Except.ok hb.nanosecond_heartbeat)

/-- `ChromaClient::create_collection` (src/client.rs lines 94-133).
`Some(metadata).unwrap_or(None)` in the source is just `metadata`. -/
def ChromaClient.create_collection (t : Transport) (c : ChromaClient)
    (name : String) (metadata : Option (List (String × String))) : OpResult Collection :=
  match ChromaClient.check_pre_flight_status t c with
  | (plog, Except.error e) => (plog, Except.error e)
  | (plog, Except.ok ()) =>
    match ChromaClient.get_url_with_params c "api/v1/collections" with
    | Except.error e => (plog, Except.error e)
    | Except.ok url =>
      let headers := c.headers.insert "content-type" "application/json"
      let request_body : CreateCollectionRequest := ⟨name, metadata, false⟩
      let req : Request := ⟨Method.POST, url, headers, some request_body.toJson⟩
      (plog ++ [req],
       match t req with
       | Except.error e => Except.error (ChromaClientError.RequestError e)
       | Except.ok response =>
         match response.body with
         | Except.error e => Except.error (ChromaClientError.ResponseError e)
         | Except.ok j =>
           match CreateCollectionResponse.from_json j with
           | Except.error e => Except.error (ChromaClientError.ResponseParseError e)
           | Except.ok r => Except.ok ⟨r.name, r.id, r.metadata⟩)

/-- `ChromaClient::get_collection` (src/client.rs lines 136-157).  The
caller-supplied name is formatted straight into the path string. -/
def ChromaClient.get_collection (t : Transport) (c : ChromaClient)
    (name : String) : OpResult Collection :=
  match ChromaClient.check_pre_flight_status t c with
  | (plog, Except.error e) => (plog, Except.error e)
  | (plog, Except.ok ()) =>
    match ChromaClient.get_url_with_params c ("api/v1/collections/" ++ name) with
    | Except.error e => (plog, Except.error e)
    | Except.ok url =>
      let req : Request := ⟨Method.GET, url, c.headers, none⟩
      (plog ++ [req],
       match t req with
       | Except.error e => Except.error (ChromaClientError.RequestError e)
       | Except.ok response =>
         match response.body with
         | Except.error e => Except.error (ChromaClientError.ResponseError e)
         | Except.ok j =>
           match Collection.from_json j with
           | Except.error e => Except.error (ChromaClientError.ResponseParseError e)
           | Except.ok col => Except.ok col)

/-- `ChromaClient::get_or_create_collection` (src/client.rs lines 160-199):
identical to `create_collection` except that `get_or_create` is `true`. -/
def ChromaClient.get_or_create_collection (t : Transport) (c : ChromaClient)
    (name : String) (metadata : Option (List (String × String))) : OpResult Collection :=
  match ChromaClient.check_pre_flight_status t c with
  | (plog, Except.error e) => (plog, Except.error e)
  | (plog, Except.ok ()) =>
    match ChromaClient.get_url_with_params c "api/v1/collections" with
    | Except.error e => (plog, Except.error e)
    | Except.ok url =>
      let headers := c.headers.insert "content-type" "application/json"
      let request_body : CreateCollectionRequest := ⟨name, metadata, true⟩
      let req : Request := ⟨Method.POST, url, headers, some request_body.toJson⟩
      (plog ++ [req],
       match t req with
       | Except.error e => Except.error (ChromaClientError.RequestError e)
       | Except.ok response =>
         match response.body with
         | Except.error e => Except.error (ChromaClientError.ResponseError e)
         | Except.ok j =>
           match CreateCollectionResponse.from_json j with
           | Except.error e => Except.error (ChromaClientError.ResponseParseError e)
           | Except.ok r => Except.ok ⟨r.name, r.id, r.metadata⟩)

/-- `ChromaClient::delete_collection` (src/client.rs lines 202-226).  Note:
the source inserts `Content-Type: application/json` here although the
request carries no body. -/
def ChromaClient.delete_collection (t : Transport) (c : ChromaClient)
    (name : String) : OpResult Unit :=
  match ChromaClient.check_pre_flight_status t c with
  | (plog, Except.error e) => (plog, Except.error e)
  | (plog, Except.ok ()) =>
    match ChromaClient.get_url_with_params c ("api/v1/collections/" ++ name) with
    | Except.error e => (plog, Except.error e)
    | Except.ok url =>
      let headers := c.headers.insert "content-type" "application/json"
      let req : Request := ⟨Method.DELETE, url, headers, none⟩
      (plog ++ [req],
       match t req with
       | Except.error e => Except.error (ChromaClientError.RequestError e)
       | Except.ok response =>
         if statusIsSuccess response.status then Except.ok ()
         else
           Except.error
             (ChromaClientError.ResponseStatusError
               ("Failed to delete collection with status code: " ++
                toString response.status)))

/-- `ChromaClient::list_collections` (src/client.rs lines 229-258). -/
def ChromaClient.list_collections (t : Transport) (c : ChromaClient) :
    OpResult (List Collection) :=
  match ChromaClient.check_pre_flight_status t c with
  | (plog, Except.error e) => (plog, Except.error e)
  | (plog, Except.ok ()) =>
    match ChromaClient.get_url_with_params c "api/v1/collections" with
    | Except.error e => (plog, Except.error e)
    | Except.ok url =>
      let req : Request := ⟨Method.GET, url, c.headers, none⟩
      (plog ++ [req],
       match t req with
       | Except.error e => Except.error (ChromaClientError.RequestError e)
       | Except.ok response =>
         if statusIsSuccess response.status then
           match response.body with
           | Except.error e => Except.error (ChromaClientError.ResponseError e)
           | Except.ok j =>
             match listCollectionsFromJson j with
             | Except.error e => Except.error (ChromaClientError.ResponseParseError e)
             | Except.ok cols => Except.ok cols
         else
           Except.error
             (ChromaClientError.ResponseStatusError
               ("Failed to list collections with status code: " ++
                toString response.status)))

/-- `ChromaClient::reset` (src/client.rs lines 261-282). -/
def ChromaClient.reset (t : Transport) (c : ChromaClient) : OpResult Unit :=
  match ChromaClient.check_pre_flight_status t c with
  | (plog, Except.error e) => (plog, Except.error e)
  | (plog, Except.ok ()) =>
    match ChromaClient.get_url c "api/v1/reset" with
    | Except.error e => (plog, Except.error e)
    | Except.ok url =>
      let req : Request := ⟨Method.POST, url, c.headers, none⟩
      (plog ++ [req],
       match t req with
       | Except.error e => Except.error (ChromaClientError.RequestError e)
       | Except.ok response =>
         if statusIsSuccess response.status then Except.ok ()
         else
           Except.error
             (ChromaClientError.ResponseStatusError
               ("Failed to reset with status code: " ++ toString response.status ++
                " - make sure ALLOW_RESET=TRUE")))

/-- `ChromaClient::version` (src/client.rs lines 285-303).  Note: the source
returns the raw body text as success without ever inspecting the status. -/
def ChromaClient.version (t : Transport) (c : ChromaClient) : OpResult String :=
  match ChromaClient.check_pre_flight_status t c with
  | (plog, Except.error e) => (plog, Except.error e)
  | (plog, Except.ok ()) =>
    match ChromaClient.get_url c "api/v1/version" with
    | Except.error e => (plog, Except.error e)
    | Except.ok url =>
      let req : Request := ⟨Method.GET, url, c.headers, none⟩
      (plog ++ [req],
       match t req with
       | Except.error e => Except.error (ChromaClientError.RequestError e)
       | Except.ok res =>
         match res.body with
         | Except.error e => Except.error (ChromaClientError.ResponseError e)
         | Except.ok j => Except.ok (Json.render j))

/-! ## Concrete fixtures used by witnesses and counterexamples -/

/-- The client of the source's own tests: `ChromaClientParams::default()`. -/
def clientA : ChromaClient := ChromaClient.new ChromaClientParams.default

/-- The pre-flight request `clientA` issues. -/
def preReqA : Request :=
  ⟨Method.GET,
   ⟨"http", "localhost", some "8000", ["api", "v1", "pre-flight-checks"], none, none⟩,
   [("accept", "application/json")], none⟩

/-- Transport answering every request with status 200 and a null JSON body. -/
def tOkNull : Transport := fun _ => Except.ok ⟨200, Except.ok Json.null⟩

/-- Transport: pre-flight succeeds, every other request gets status 500 with
body text `"oops"`. -/
def t500 : Transport := fun r =>
  if r.url.path = ["api", "v1", "pre-flight-checks"] then Except.ok ⟨200, Except.ok Json.null⟩
  else Except.ok ⟨500, Except.ok (Json.str "oops")⟩

/-- Transport whose responses arrive with status 200 but whose body read
fails (connection dropped mid-body). -/
def tBodyFail : Transport := fun _ => Except.ok ⟨200, Except.error "boom"⟩

/-- Transport that fails to send every request. -/
def tSendFail : Transport := fun _ => Except.error "connection refused"

/-- Transport: GET requests (the pre-flight probe) succeed, anything else
gets status 500. -/
def tMeth : Transport := fun r =>
  match r.method with
  | Method.GET => Except.ok ⟨200, Except.ok Json.null⟩
  | _ => Except.ok ⟨500, Except.ok Json.null⟩

/-- Transport: requests with a query string (scoped calls) get status 404,
unscoped ones succeed. -/
def tQuery404 : Transport := fun r =>
  if r.url.query.isSome then Except.ok ⟨404, Except.ok Json.null⟩
  else Except.ok ⟨200, Except.ok Json.null⟩

/-- Transport delivering a heartbeat body on the heartbeat path. -/
def tHeartbeat : Transport := fun r =>
  if r.url.path = ["api", "v1", "heartbeat"] then
    Except.ok ⟨200, Except.ok (Json.obj [("nanosecond heartbeat", Json.num 123456789)])⟩
  else Except.ok ⟨200, Except.ok Json.null⟩

/-- Transport delivering a valid-JSON object lacking the `id` field on
scoped requests. -/
def tNoId : Transport := fun r =>
  if r.url.query.isSome then
    Except.ok ⟨200, Except.ok (Json.obj [("name", Json.str "john-doe-collection")])⟩
  else Except.ok ⟨200, Except.ok Json.null⟩

/-! ## Header lemmas -/

theorem headerGet_insert (m : HeaderMap) (k v : String) :
    (m.insert k v).get k = some v := by
  unfold HeaderMap.insert HeaderMap.get
  by_cases h : List.any m (fun p => p.1 == k)
  · simp only [h, if_true]
    induction m with
    | nil => simp at h
    | cons p rest ih =>
      by_cases hp : p.1 == k
      · simp [List.find?, hp]
      · simp only [List.any_cons, hp, Bool.false_or] at h
        simpa [List.find?, hp] using ih h
  · simp only [h, if_false]
    induction m with
    | nil => simp [List.find?]
    | cons p rest ih =>
      simp only [List.any_cons, Bool.or_eq_true] at h
      push_neg at h
      simpa [List.find?, h.1] using ih h.2

/-! ## Error-kind lemmas -/

theorem check_error_used (t : Transport) (c : ChromaClient) (e : ChromaClientError)
    (h : (ChromaClient.check_pre_flight_status t c).2 = Except.error e) :
    usedKind e = true := by
  unfold ChromaClient.check_pre_flight_status at h
  rcases hp : parseUrl (c.path ++ "/api/v1/pre-flight-checks") with e1 | u <;> rw [hp] at h
  · simp at h
    subst h
    rfl
  · simp only at h
    rcases ht : t ⟨Method.GET, u, c.headers, none⟩ with e2 | res <;> rw [ht] at h <;> simp at h
    · subst h
      rfl
    · rcases hs : statusIsSuccess res.status <;> rw [hs] at h <;> simp at h
      subst h
      rfl

theorem get_url_error_kind (c : ChromaClient) (p : String) (e : ChromaClientError)
    (h : ChromaClient.get_url c p = Except.error e) :
    ∃ s, e = ChromaClientError.UrlParseError s := by
  unfold ChromaClient.get_url at h
  rcases hp : parseUrl (c.path ++ "/" ++ p) with e1 | u <;> rw [hp] at h <;> simp at h
  exact ⟨e1, h.symm⟩

theorem get_url_with_params_error_kind (c : ChromaClient) (p : String) (e : ChromaClientError)
    (h : ChromaClient.get_url_with_params c p = Except.error e) :
    ∃ s, e = ChromaClientError.UrlParseError s := by
  unfold ChromaClient.get_url_with_params at h
  rcases hp : parseUrl (c.path ++ "/" ++ p) with e1 | u <;> rw [hp] at h <;> simp at h
  exact ⟨e1, h.symm⟩

/-! ## URL model lemmas -/

theorem takeWhile_append_all {α : Type} (p : α → Bool) (xs ys : List α)
    (h : ∀ x ∈ xs, p x = true) :
    (xs ++ ys).takeWhile p = xs ++ ys.takeWhile p := by
  induction xs with
  | nil => simp
  | cons a l ih =>
    have ha := h a (by simp)
    simp [List.takeWhile_cons, ha]
    exact ih (fun x hx => h x (by simp [hx]))

theorem dropWhile_append_all {α : Type} (p : α → Bool) (xs ys : List α)
    (h : ∀ x ∈ xs, p x = true) :
    (xs ++ ys).dropWhile p = ys.dropWhile p := by
  induction xs with
  | nil => simp
  | cons a l ih =>
    have ha := h a (by simp)
    simp only [List.cons_append, List.dropWhile_cons, ha, if_true]
    exact ih (fun x hx => h x (by simp [hx]))

theorem takeWhile_all {α : Type} (p : α → Bool) (xs : List α)
    (h : ∀ x ∈ xs, p x = true) : xs.takeWhile p = xs := by
  simpa using takeWhile_append_all p xs [] h

theorem contains_false_of_all_ne (cs : List Char) (a : Char)
    (h : ∀ c ∈ cs, c ≠ a) : cs.contains a = false := by
  induction cs with
  | nil => rfl
  | cons c l ih =>
    have hca := h c (by simp)
    simp only [List.contains_cons]
    rw [ih (fun x hx => h x (by simp [hx]))]
    simp [Ne.symm hca]


theorem splitFirst_none (sep : Char) (cs : List Char) (h : ∀ c ∈ cs, c ≠ sep) :
    splitFirstChar sep cs = (cs, none) := by
  unfold splitFirstChar
  rw [takeWhile_all _ _ (fun c hc => decide_eq_true (h c hc)),
    contains_false_of_all_ne cs sep h]
  simp

theorem splitFirst_mark (sep : Char) (pre post : List Char) (h : ∀ c ∈ pre, c ≠ sep) :
    splitFirstChar sep (pre ++ sep :: post) = (pre, some post) := by
  unfold splitFirstChar
  rw [takeWhile_append_all _ _ _ (fun c hc => decide_eq_true (h c hc)),
    dropWhile_append_all _ _ _ (fun c hc => decide_eq_true (h c hc))]
  have hcon : (pre ++ sep :: post).contains sep = true := by
    simp [List.contains_cons]
  rw [hcon]
  simp [List.takeWhile_cons, List.dropWhile_cons]

theorem splitAmp_noamp (cs : List Char) (h : ∀ c ∈ cs, c ≠ '&') : splitAmp cs = [cs] := by
  induction cs with
  | nil => rfl
  | cons c l ih =>
    have hc := h c (by simp)
    rw [splitAmp]
    simp only [hc, if_false]
    rw [ih (fun x hx => h x (by simp [hx]))]
  
theorem splitAmp_append (a b : List Char) (h : ∀ c ∈ a, c ≠ '&') :
    splitAmp (a ++ '&' :: b) = a :: splitAmp b := by
  induction a with
  | nil => simp [splitAmp]
  | cons c l ih =>
    have hc := h c (by simp)
    simp only [List.cons_append]
    rw [splitAmp]
    simp only [hc, if_false]
    rw [ih (fun x hx => h x (by simp [hx]))]

theorem splitSegs_nosep (cs : List Char) (h : ∀ c ∈ cs, c ≠ '/' ∧ c ≠ '\\') :
    splitSegs cs = [cs] := by
  induction cs with
  | nil => rfl
  | cons c l ih =>
    obtain ⟨h1, h2⟩ := h c (by simp)
    rw [splitSegs]
    simp only [h1, h2]
    rw [ih (fun x hx => h x (by simp [hx]))]
    rfl

theorem splitSegs_append_sep (s t : List Char) (h : ∀ c ∈ s, c ≠ '/' ∧ c ≠ '\\') :
    splitSegs (s ++ '/' :: t) = s :: splitSegs t := by
  induction s with
  | nil => simp [splitSegs]
  | cons c l ih =>
    obtain ⟨h1, h2⟩ := h c (by simp)
    simp only [List.cons_append]
    rw [splitSegs]
    simp only [h1, h2]
    rw [ih (fun x hx => h x (by simp [hx]))]
    rfl

theorem splitSegs_join (L : List (List Char)) (hne : L ≠ [])
    (h : ∀ s ∈ L, ∀ c ∈ s, c ≠ '/' ∧ c ≠ '\\') :
    splitSegs (joinSegsChars L) = L := by
  induction L with
  | nil => exact absurd rfl hne
  | cons s L' ih =>
    cases L' with
    | nil => exact splitSegs_nosep s (h s (by simp))
    | cons s2 L2 =>
      rw [joinSegsChars]
      rw [splitSegs_append_sep s _ (h s (by simp))]
      rw [ih (List.cons_ne_nil _ _) (fun x hx => h x (by simp [hx]))]

theorem dropLead_self : ∀ pre rest : List Char, dropLead pre (pre ++ rest) = some rest := by
  intro pre
  induction pre with
  | nil => intro rest; rfl
  | cons p l ih => intro rest; simp [dropLead, ih]

theorem schemeSplit_http (rest : List Char) :
    schemeSplit (httpChars ++ rest) = some ("http", rest) := by
  unfold schemeSplit
  have h1 : dropLead httpsChars (httpChars ++ rest) = none := by
    simp [httpsChars, httpChars, dropLead]
  rw [h1, dropLead_self]

theorem schemeSplit_https (rest : List Char) :
    schemeSplit (httpsChars ++ rest) = some ("https", rest) := by
  unfold schemeSplit
  rw [dropLead_self]


theorem authDelim_false (c : Char)
    (h : c.toNat ≠ 47 ∧ c.toNat ≠ 92 ∧ c.toNat ≠ 63 ∧ c.toNat ≠ 35) :
    authDelim c = false := by
  simp only [authDelim, Bool.or_eq_false_iff, decide_eq_false_iff_not]
  refine ⟨⟨⟨?_, ?_⟩, ?_⟩, ?_⟩ <;> intro he <;> subst he
  · exact absurd rfl h.1
  · exact absurd rfl h.2.1
  · exact absurd rfl h.2.2.1
  · exact absurd rfl h.2.2.2

theorem forbiddenHostChar_false (c : Char) (hge : 33 ≤ c.toNat)
    (h : c.toNat ≠ 35 ∧ c.toNat ≠ 47 ∧ c.toNat ≠ 58 ∧ c.toNat ≠ 60 ∧ c.toNat ≠ 62 ∧
         c.toNat ≠ 63 ∧ c.toNat ≠ 64 ∧ c.toNat ≠ 91 ∧ c.toNat ≠ 92 ∧ c.toNat ≠ 93 ∧
         c.toNat ≠ 94 ∧ c.toNat ≠ 124) :
    forbiddenHostChar c = false := by
  simp only [forbiddenHostChar, Bool.or_eq_false_iff, decide_eq_false_iff_not]
  obtain ⟨h1, h2, h3, h4, h5, h6, h7, h8, h9, h10, h11, h12⟩ := h
  refine ⟨⟨⟨⟨⟨⟨⟨⟨⟨⟨⟨⟨?_, ?_⟩, ?_⟩, ?_⟩, ?_⟩, ?_⟩, ?_⟩, ?_⟩, ?_⟩, ?_⟩, ?_⟩, ?_⟩, ?_⟩
  · omega
  all_goals intro he
  all_goals subst he
  · exact absurd rfl h1
  · exact absurd rfl h2
  · exact absurd rfl h3
  · exact absurd rfl h4
  · exact absurd rfl h5
  · exact absurd rfl h6
  · exact absurd rfl h7
  · exact absurd rfl h8
  · exact absurd rfl h9
  · exact absurd rfl h10
  · exact absurd rfl h11
  · exact absurd rfl h12

theorem char_ne_of_toNat (c d : Char) (h : c.toNat ≠ d.toNat) : c ≠ d :=
  fun he => h (he ▸ rfl)

theorem hostChar_codes (c : Char) (h : hostChar c = true) :
    (97 ≤ c.toNat ∧ c.toNat ≤ 122) ∨ (48 ≤ c.toNat ∧ c.toNat ≤ 57) ∨
    c.toNat = 45 ∨ c.toNat = 46 := by
  simp only [hostChar, Bool.or_eq_true, Bool.and_eq_true, decide_eq_true_eq] at h
  rcases h with ((⟨h1, h2⟩ | ⟨h1, h2⟩) | rfl) | rfl
  · exact Or.inl ⟨h1, h2⟩
  · exact Or.inr (Or.inl ⟨h1, h2⟩)
  · exact Or.inr (Or.inr (Or.inl rfl))
  · exact Or.inr (Or.inr (Or.inr rfl))

theorem hostChar_nat (c : Char) (h : hostChar c = true) :
    33 ≤ c.toNat ∧ c.toNat ≤ 126 ∧ c.toNat ≠ 35 ∧ c.toNat ≠ 47 ∧ c.toNat ≠ 58 ∧
    c.toNat ≠ 60 ∧ c.toNat ≠ 62 ∧ c.toNat ≠ 63 ∧ c.toNat ≠ 64 ∧ c.toNat ≠ 91 ∧
    c.toNat ≠ 92 ∧ c.toNat ≠ 93 ∧ c.toNat ≠ 94 ∧ c.toNat ≠ 124 := by
  rcases hostChar_codes c h with ⟨h1, h2⟩ | ⟨h1, h2⟩ | h1 | h1 <;> omega

theorem hostChar_facts (c : Char) (h : hostChar c = true) :
    authDelim c = false ∧ forbiddenHostChar c = false ∧ c ≠ ':' := by
  have hn := hostChar_nat c h
  have h58 : (':' : Char).toNat = 58 := rfl
  refine ⟨authDelim_false c (by omega), forbiddenHostChar_false c (by omega) (by omega), ?_⟩
  exact char_ne_of_toNat c ':' (by omega)

theorem isDigitB_codes (c : Char) (h : isDigitB c = true) :
    48 ≤ c.toNat ∧ c.toNat ≤ 57 := by
  simpa [isDigitB] using h

theorem isDigitB_facts (c : Char) (h : isDigitB c = true) :
    authDelim c = false ∧ forbiddenHostChar c = false ∧ c ≠ ':' := by
  have hn := isDigitB_codes c h
  have h58 : (':' : Char).toNat = 58 := rfl
  refine ⟨authDelim_false c (by omega), forbiddenHostChar_false c (by omega) (by omega), ?_⟩
  exact char_ne_of_toNat c ':' (by omega)

theorem splitLastColon_mid (h p : List Char)
    (hp : ∀ c ∈ p, c ≠ ':') :
    splitLastColon (h ++ ':' :: p) = (h, some p) := by
  unfold splitLastColon
  have hcon : (h ++ ':' :: p).contains ':' = true := by simp [List.contains_cons]
  rw [hcon]
  simp only [if_true, List.reverse_append, List.reverse_cons]
  have hrev : p.reverse ++ [':'] ++ h.reverse = p.reverse ++ ':' :: h.reverse := by simp
  rw [hrev]
  rw [takeWhile_append_all _ _ _
      (fun c hc => decide_eq_true (hp c (List.mem_reverse.mp hc))),
    dropWhile_append_all _ _ _
      (fun c hc => decide_eq_true (hp c (List.mem_reverse.mp hc)))]
  simp [List.takeWhile_cons, List.dropWhile_cons]

theorem splitLastColon_none (h : List Char) (hh : ∀ c ∈ h, c ≠ ':') :
    splitLastColon h = (h, none) := by
  unfold splitLastColon
  rw [contains_false_of_all_ne h ':' hh]
  simp


theorem string_ne_nil_data (p : String) (h : p ≠ "") : p.data ≠ [] := by
  intro h0
  apply h
  cases p
  simp_all

theorem portOk_parts (p : String) (hp : portOk p = true) :
    p.data ≠ [] ∧ (∀ c ∈ p.data, isDigitB c = true) ∧
    (p = "0" ∨ p.data.headD '0' ≠ '0') ∧
    (parseDigitsAcc 0 p.data).getD 65536 ≤ 65535 := by
  simp only [portOk, Bool.and_eq_true, decide_eq_true_eq, List.all_eq_true,
    Bool.or_eq_true] at hp
  obtain ⟨⟨⟨hne, hdig⟩, hlead⟩, hbound⟩ := hp
  refine ⟨string_ne_nil_data p hne, fun c hc => hdig c hc, ?_, hbound⟩
  rcases hlead with h0 | hh
  · exact Or.inl h0
  · exact Or.inr (by simpa using hh)

theorem canonPortStr_eval (scheme p : String) (hp : portOk p = true) :
    ∃ n, parseDigitsAcc 0 p.toList = some n ∧ n ≤ 65535 ∧
      canonPortStr scheme p.toList =
        Except.ok
          (if (scheme = "http" && n = 80) || (scheme = "https" && n = 443) then none
           else some p) := by
  obtain ⟨hne, hdig, hlead, hbound⟩ := portOk_parts p hp
  have hds : (p.data.dropWhile (fun c => c = '0') = [] → p.data = ['0']) ∧
      (p.data.dropWhile (fun c => c = '0') ≠ [] →
        p.data.dropWhile (fun c => c = '0') = p.data) := by
    rcases hlead with h0 | hh
    · rw [h0]
      exact ⟨fun _ => rfl, fun hx => absurd (by decide) hx⟩
    · cases hd : p.data with
      | nil => exact absurd hd hne
      | cons c rest =>
        rw [hd] at hh
        have : (c = '0') = False := by
          simp only [List.headD_cons] at hh
          simp [hh]
        constructor
        · intro hx
          rw [List.dropWhile_cons] at hx
          simp [this] at hx
        · intro hx
          rw [List.dropWhile_cons]
          simp [this]
  by_cases hnil : p.data.dropWhile (fun c => c = '0') = []
  · have hpd : p.data = ['0'] := hds.1 hnil
    have hpstr : p = "0" := congrArg String.mk hpd
    subst hpstr
    exact ⟨0, rfl, by omega, by simp [canonPortStr, parseDigitsAcc, isDigitB]⟩
  · have hds2 := hds.2 hnil
    simp only [String.toList]
    rcases hpd : parseDigitsAcc 0 p.data with _ | n
    · rw [hpd] at hbound
      simp at hbound
    · have hb : n ≤ 65535 := by
        rw [hpd] at hbound
        simpa using hbound
      refine ⟨n, rfl, hb, ?_⟩
      simp only [canonPortStr, String.toList]
      rw [if_neg hnil]
      rw [hds2, hpd]
      simp only []
      rw [if_neg (by omega : ¬ n > 65535)]
      split
      · rfl
      · rfl


theorem hostOk_parts (host : String) (hh : hostOk host = true) :
    host.data ≠ [] ∧ ∀ c ∈ host.data, hostChar c = true := by
  simp only [hostOk, Bool.and_eq_true, decide_eq_true_eq, List.all_eq_true] at hh
  exact ⟨string_ne_nil_data host hh.1, fun c hc => hh.2 c hc⟩

theorem parseAuthority_hostport (scheme host port : String)
    (hh : hostOk host = true) (hp : portOk port = true) :
    parseAuthority scheme (host.data ++ ':' :: port.data) =
      Except.ok (host, canonPort scheme port) := by
  obtain ⟨hhne, hhchars⟩ := hostOk_parts host hh
  obtain ⟨hpne, hpdig, hplead, hpbound⟩ := portOk_parts port hp
  unfold parseAuthority
  rw [if_neg (by simp : ¬ host.data ++ ':' :: port.data = [])]
  rw [splitLastColon_mid host.data port.data
    (fun c hc => (isDigitB_facts c (hpdig c hc)).2.2)]
  simp only []
  rw [if_neg hhne]
  have hany : host.data.any forbiddenHostChar = false := by
    rw [List.any_eq_false]
    intro c hc
    rw [(hostChar_facts c (hhchars c hc)).2.1]
    simp
  rw [hany]
  simp only [Bool.false_eq_true, if_false]
  obtain ⟨n, hn, hb, hcps⟩ := canonPortStr_eval scheme port hp
  simp only [String.toList] at hcps
  have hcp : canonPort scheme port =
      (if (scheme = "http" && n = 80) || (scheme = "https" && n = 443) then none
       else some port) := by
    simp only [canonPort, String.toList]
    rw [hcps]
  rcases hcons : port.data with _ | ⟨c, rest⟩
  · exact absurd hcons hpne
  · rw [hcons] at hcps
    rw [hcps, hcp]

/-! ## Claim theorems -/

/-- C1, counterexample: the claim says every operation returns a
`ResponseStatusError` Failure and never a Success when the transport
answers with a non-success status.  But `version` on a status-500 response
returns the response body as a Success. -/
theorem C1_counterexample :
    (ChromaClient.version t500 clientA).2 = Except.ok "\"oops\"" ∧
    statusIsSuccess 500 = false :=
  ⟨rfl, rfl⟩

/-- C3, counterexample: the claim says every operation's failure is one of
the six spec kinds.  A heartbeat whose response body read fails returns a
`ResponseError`, which is none of the six. -/
theorem C3_counterexample :
    (ChromaClient.heartbeat tBodyFail clientA).2 =
      Except.error (ChromaClientError.ResponseError "boom") ∧
    inSixTaxonomy (ChromaClientError.ResponseError "boom") = false :=
  ⟨rfl, rfl⟩

/-- C4, counterexample: the claim says the bodiless operations (among them
`deleteCollection`) do not attach `Content-Type`.  But the main request of
`delete_collection` carries `Content-Type: application/json` and no body. -/
theorem C4_counterexample :
    (ChromaClient.delete_collection tOkNull clientA "x").1 =
      [preReqA,
       ⟨Method.DELETE,
        ⟨"http", "localhost", some "8000", ["api", "v1", "collections", "x"],
         some "tenant=default_tenant&database=default_database", none⟩,
        [("accept", "application/json"), ("content-type", "application/json")], none⟩] ∧
    HeaderMap.get
      [("accept", "application/json"), ("content-type", "application/json")]
      "content-type" = some "application/json" :=
  ⟨rfl, rfl⟩

/-- C6, counterexample: the claim quantifies over every relative path, but a
path containing `?` (as `get_collection` produces for a name containing `?`)
yields a scoped URL whose query parameters are not exactly
tenant/database. -/
theorem C6_counterexample :
    ChromaClient.get_url_with_params clientA "x?y" =
      Except.ok
        ⟨"http", "localhost", some "8000", ["x"],
         some "y&tenant=default_tenant&database=default_database", none⟩ ∧
    Url.queryPairs
      ⟨"http", "localhost", some "8000", ["x"],
       some "y&tenant=default_tenant&database=default_database", none⟩ =
      [("y", ""), ("tenant", "default_tenant"), ("database", "default_database")] ∧
    ([("y", ""), ("tenant", "default_tenant"), ("database", "default_database")] ≠
      ([("tenant", "default_tenant"), ("database", "default_database")] :
        List (String × String))) :=
  ⟨rfl, rfl, by decide⟩

/-- C2: the spec requires caller-supplied collection names to be
percent-encoded into a single path segment; `get_collection` and
`delete_collection` instead format the raw name into the URL string, so a
name containing `?` (here `a?b`) is split by the URL parser: the path
becomes `api/v1/collections/a` and `b` becomes part of the query string —
the request line is corrupted exactly as the spec warns. -/
theorem C2_code_bug :
    ChromaClient.get_url_with_params clientA "api/v1/collections/a?b" =
      Except.ok
        ⟨"http", "localhost", some "8000", ["api", "v1", "collections", "a"],
         some "b&tenant=default_tenant&database=default_database", none⟩ ∧
    (ChromaClient.get_collection tOkNull clientA "a?b").1 =
      [preReqA,
       ⟨Method.GET,
        ⟨"http", "localhost", some "8000", ["api", "v1", "collections", "a"],
         some "b&tenant=default_tenant&database=default_database", none⟩,
        [("accept", "application/json")], none⟩] :=
  ⟨rfl, rfl⟩

/-- C10: client construction is total — modelled, as in the source, by a
plain function that cannot fail (the only `unwrap` in `ChromaClient::new`
parses the constant header value `"application/json"`) — and the
constructed default header set always maps `accept` to exactly
`application/json`, replacing any caller-supplied value for that header. -/
theorem C10_new_total_accept_json (p : ChromaClientParams) :
    (ChromaClient.new p).headers.get "accept" = some "application/json" :=
  headerGet_insert (p.headers.getD []) "accept" "application/json"

theorem heartbeat_error_used (t : Transport) (c : ChromaClient) (e : ChromaClientError)
    (h : (ChromaClient.heartbeat t c).2 = Except.error e) : usedKind e = true := by
  rcases hc : ChromaClient.check_pre_flight_status t c with ⟨plog, res⟩
  simp only [ChromaClient.heartbeat, hc] at h
  rcases res with eP | u0
  · simp at h
    subst h
    exact check_error_used t c _ (by rw [hc])
  · simp only at h
    rcases hu : ChromaClient.get_url c "api/v1/heartbeat" with e1 | u1 <;> rw [hu] at h
    · simp at h
      obtain ⟨s, rfl⟩ := get_url_error_kind c _ _ (by rw [hu, h])
      rfl
    · simp only at h
      rcases ht : t ⟨Method.GET, u1, c.headers, none⟩ with e2 | resp <;> rw [ht] at h <;> simp at h
      · subst h
        rfl
      · rcases hb : resp.body with e3 | j <;> rw [hb] at h <;> simp at h
        · subst h
          rfl
        · rcases hj : HeartbeatResponse.from_json j with e4 | hbv <;> rw [hj] at h <;> simp at h
          subst h
          rfl

theorem create_error_used (t : Transport) (c : ChromaClient) (n : String)
    (md : Option (List (String × String))) (e : ChromaClientError)
    (h : (ChromaClient.create_collection t c n md).2 = Except.error e) : usedKind e = true := by
  rcases hc : ChromaClient.check_pre_flight_status t c with ⟨plog, res⟩
  simp only [ChromaClient.create_collection, hc] at h
  rcases res with eP | u0
  · simp at h
    subst h
    exact check_error_used t c _ (by rw [hc])
  · simp only at h
    rcases hu : ChromaClient.get_url_with_params c "api/v1/collections" with e1 | u1 <;> rw [hu] at h
    · simp at h
      obtain ⟨s, rfl⟩ := get_url_with_params_error_kind c _ _ (by rw [hu, h])
      rfl
    · simp only at h
      rcases ht : t ⟨Method.POST, u1, c.headers.insert "content-type" "application/json",
          some (CreateCollectionRequest.toJson ⟨n, md, false⟩)⟩ with e2 | resp <;>
        rw [ht] at h <;> simp at h
      · subst h
        rfl
      · rcases hb : resp.body with e3 | j <;> rw [hb] at h <;> simp at h
        · subst h
          rfl
        · rcases hj : CreateCollectionResponse.from_json j with e4 | r <;> rw [hj] at h <;> simp at h
          subst h
          rfl

theorem get_collection_error_used (t : Transport) (c : ChromaClient) (n : String)
    (e : ChromaClientError)
    (h : (ChromaClient.get_collection t c n).2 = Except.error e) : usedKind e = true := by
  rcases hc : ChromaClient.check_pre_flight_status t c with ⟨plog, res⟩
  simp only [ChromaClient.get_collection, hc] at h
  rcases res with eP | u0
  · simp at h
    subst h
    exact check_error_used t c _ (by rw [hc])
  · simp only at h
    rcases hu : ChromaClient.get_url_with_params c ("api/v1/collections/" ++ n) with e1 | u1 <;>
      rw [hu] at h
    · simp at h
      obtain ⟨s, rfl⟩ := get_url_with_params_error_kind c _ _ (by rw [hu, h])
      rfl
    · simp only at h
      rcases ht : t ⟨Method.GET, u1, c.headers, none⟩ with e2 | resp <;> rw [ht] at h <;> simp at h
      · subst h
        rfl
      · rcases hb : resp.body with e3 | j <;> rw [hb] at h <;> simp at h
        · subst h
          rfl
        · rcases hj : Collection.from_json j with e4 | col <;> rw [hj] at h <;> simp at h
          subst h
          rfl

theorem get_or_create_error_used (t : Transport) (c : ChromaClient) (n : String)
    (md : Option (List (String × String))) (e : ChromaClientError)
    (h : (ChromaClient.get_or_create_collection t c n md).2 = Except.error e) :
    usedKind e = true := by
  rcases hc : ChromaClient.check_pre_flight_status t c with ⟨plog, res⟩
  simp only [ChromaClient.get_or_create_collection, hc] at h
  rcases res with eP | u0
  · simp at h
    subst h
    exact check_error_used t c _ (by rw [hc])
  · simp only at h
    rcases hu : ChromaClient.get_url_with_params c "api/v1/collections" with e1 | u1 <;> rw [hu] at h
    · simp at h
      obtain ⟨s, rfl⟩ := get_url_with_params_error_kind c _ _ (by rw [hu, h])
      rfl
    · simp only at h
      rcases ht : t ⟨Method.POST, u1, c.headers.insert "content-type" "application/json",
          some (CreateCollectionRequest.toJson ⟨n, md, true⟩)⟩ with e2 | resp <;>
        rw [ht] at h <;> simp at h
      · subst h
        rfl
      · rcases hb : resp.body with e3 | j <;> rw [hb] at h <;> simp at h
        · subst h
          rfl
        · rcases hj : CreateCollectionResponse.from_json j with e4 | r <;> rw [hj] at h <;> simp at h
          subst h
          rfl

theorem delete_error_used (t : Transport) (c : ChromaClient) (n : String) (e : ChromaClientError)
    (h : (ChromaClient.delete_collection t c n).2 = Except.error e) : usedKind e = true := by
  rcases hc : ChromaClient.check_pre_flight_status t c with ⟨plog, res⟩
  simp only [ChromaClient.delete_collection, hc] at h
  rcases res with eP | u0
  · simp at h
    subst h
    exact check_error_used t c _ (by rw [hc])
  · simp only at h
    rcases hu : ChromaClient.get_url_with_params c ("api/v1/collections/" ++ n) with e1 | u1 <;>
      rw [hu] at h
    · simp at h
      obtain ⟨s, rfl⟩ := get_url_with_params_error_kind c _ _ (by rw [hu, h])
      rfl
    · simp only at h
      rcases ht : t ⟨Method.DELETE, u1, c.headers.insert "content-type" "application/json",
          none⟩ with e2 | resp <;> rw [ht] at h <;> simp at h
      · subst h
        rfl
      · rcases hs : statusIsSuccess resp.status <;> rw [hs] at h <;> simp at h
        subst h
        rfl

theorem list_error_used (t : Transport) (c : ChromaClient) (e : ChromaClientError)
    (h : (ChromaClient.list_collections t c).2 = Except.error e) : usedKind e = true := by
  rcases hc : ChromaClient.check_pre_flight_status t c with ⟨plog, res⟩
  simp only [ChromaClient.list_collections, hc] at h
  rcases res with eP | u0
  · simp at h
    subst h
    exact check_error_used t c _ (by rw [hc])
  · simp only at h
    rcases hu : ChromaClient.get_url_with_params c "api/v1/collections" with e1 | u1 <;> rw [hu] at h
    · simp at h
      obtain ⟨s, rfl⟩ := get_url_with_params_error_kind c _ _ (by rw [hu, h])
      rfl
    · simp only at h
      rcases ht : t ⟨Method.GET, u1, c.headers, none⟩ with e2 | resp <;> rw [ht] at h <;> simp at h
      · subst h
        rfl
      · rcases hs : statusIsSuccess resp.status <;> rw [hs] at h
        · simp at h
          subst h
          rfl
        · simp only [if_true] at h
          rcases hb : resp.body with e3 | j <;> rw [hb] at h <;> simp at h
          · subst h
            rfl
          · rcases hj : listCollectionsFromJson j with e4 | cols <;> rw [hj] at h <;> simp at h
            subst h
            rfl

theorem reset_error_used (t : Transport) (c : ChromaClient) (e : ChromaClientError)
    (h : (ChromaClient.reset t c).2 = Except.error e) : usedKind e = true := by
  rcases hc : ChromaClient.check_pre_flight_status t c with ⟨plog, res⟩
  simp only [ChromaClient.reset, hc] at h
  rcases res with eP | u0
  · simp at h
    subst h
    exact check_error_used t c _ (by rw [hc])
  · simp only at h
    rcases hu : ChromaClient.get_url c "api/v1/reset" with e1 | u1 <;> rw [hu] at h
    · simp at h
      obtain ⟨s, rfl⟩ := get_url_error_kind c _ _ (by rw [hu, h])
      rfl
    · simp only at h
      rcases ht : t ⟨Method.POST, u1, c.headers, none⟩ with e2 | resp <;> rw [ht] at h <;> simp at h
      · subst h
        rfl
      · rcases hs : statusIsSuccess resp.status <;> rw [hs] at h <;> simp at h
        subst h
        rfl

theorem version_error_used (t : Transport) (c : ChromaClient) (e : ChromaClientError)
    (h : (ChromaClient.version t c).2 = Except.error e) : usedKind e = true := by
  rcases hc : ChromaClient.check_pre_flight_status t c with ⟨plog, res⟩
  simp only [ChromaClient.version, hc] at h
  rcases res with eP | u0
  · simp at h
    subst h
    exact check_error_used t c _ (by rw [hc])
  · simp only at h
    rcases hu : ChromaClient.get_url c "api/v1/version" with e1 | u1 <;> rw [hu] at h
    · simp at h
      obtain ⟨s, rfl⟩ := get_url_error_kind c _ _ (by rw [hu, h])
      rfl
    · simp only at h
      rcases ht : t ⟨Method.GET, u1, c.headers, none⟩ with e2 | resp <;> rw [ht] at h <;> simp at h
      · subst h
        rfl
      · rcases hb : resp.body with e3 | j <;> rw [hb] at h <;> simp at h
        subst h
        rfl

/-- C3, amended: every failure of a public operation is one of the six
kinds actually raised in the source — `UrlParseError` (the spec's
`UrlError`), `PreflightError`, `RequestError`, `ResponseStatusError`,
`ResponseParseError` or `ResponseError` — in particular it is never
`ConfigurationError`; and client construction is total (`ChromaClient.new`
cannot fail, so in particular it never fails on header input). -/
theorem C3_error_kinds (t : Transport) (c : ChromaClient) (n : String)
    (md : Option (List (String × String))) (e : ChromaClientError) :
    ((ChromaClient.heartbeat t c).2 = Except.error e → usedKind e = true) ∧
    ((ChromaClient.create_collection t c n md).2 = Except.error e → usedKind e = true) ∧
    ((ChromaClient.get_collection t c n).2 = Except.error e → usedKind e = true) ∧
    ((ChromaClient.get_or_create_collection t c n md).2 = Except.error e → usedKind e = true) ∧
    ((ChromaClient.delete_collection t c n).2 = Except.error e → usedKind e = true) ∧
    ((ChromaClient.list_collections t c).2 = Except.error e → usedKind e = true) ∧
    ((ChromaClient.reset t c).2 = Except.error e → usedKind e = true) ∧
    ((ChromaClient.version t c).2 = Except.error e → usedKind e = true) :=
  ⟨heartbeat_error_used t c e,
   create_error_used t c n md e,
   get_collection_error_used t c n e,
   get_or_create_error_used t c n md e,
   delete_error_used t c n e,
   list_error_used t c e,
   reset_error_used t c e,
   version_error_used t c e⟩

/-- C3, witness: a transport-level failure of `heartbeat` yields a
`RequestError`, one of the kinds the amended claim allows. -/
theorem C3_error_kinds_witness :
    (ChromaClient.heartbeat tSendFail clientA).2 =
      Except.error (ChromaClientError.RequestError "connection refused") ∧
    usedKind (ChromaClientError.RequestError "connection refused") = true :=
  ⟨rfl,
   (C3_error_kinds tSendFail clientA "x" none
      (ChromaClientError.RequestError "connection refused")).1 rfl⟩

/-- C1, amended: the operations that inspect the HTTP status —
`delete_collection`, `list_collections` and `reset` — return a
`ResponseStatusError` naming the observed status (and hence never a
Success) whenever the transport answers their main request with a status
outside the success class.  The remaining operations never inspect the
status: `version` returns the body as success regardless of it, and
`heartbeat`/`create_collection`/`get_collection`/`get_or_create_collection`
decode the body regardless of it. -/
theorem C1_status_errors (t : Transport) (c : ChromaClient) (n : String) :
    (∀ u resp,
      (ChromaClient.check_pre_flight_status t c).2 = Except.ok () →
      ChromaClient.get_url_with_params c ("api/v1/collections/" ++ n) = Except.ok u →
      t ⟨Method.DELETE, u, c.headers.insert "content-type" "application/json", none⟩ =
        Except.ok resp →
      statusIsSuccess resp.status = false →
      (ChromaClient.delete_collection t c n).2 =
        Except.error
          (ChromaClientError.ResponseStatusError
            ("Failed to delete collection with status code: " ++ toString resp.status))) ∧
    (∀ u resp,
      (ChromaClient.check_pre_flight_status t c).2 = Except.ok () →
      ChromaClient.get_url_with_params c "api/v1/collections" = Except.ok u →
      t ⟨Method.GET, u, c.headers, none⟩ = Except.ok resp →
      statusIsSuccess resp.status = false →
      (ChromaClient.list_collections t c).2 =
        Except.error
          (ChromaClientError.ResponseStatusError
            ("Failed to list collections with status code: " ++ toString resp.status))) ∧
    (∀ u resp,
      (ChromaClient.check_pre_flight_status t c).2 = Except.ok () →
      ChromaClient.get_url c "api/v1/reset" = Except.ok u →
      t ⟨Method.POST, u, c.headers, none⟩ = Except.ok resp →
      statusIsSuccess resp.status = false →
      (ChromaClient.reset t c).2 =
        Except.error
          (ChromaClientError.ResponseStatusError
            ("Failed to reset with status code: " ++ toString resp.status ++
             " - make sure ALLOW_RESET=TRUE"))) := by
  refine ⟨?_, ?_, ?_⟩ <;> intro u resp hpre hu ht hs <;>
    rcases hc : ChromaClient.check_pre_flight_status t c with ⟨plog, res⟩ <;>
    rw [hc] at hpre
  · obtain rfl : res = Except.ok () := hpre
    simp [ChromaClient.delete_collection, hc, hu, ht, hs]
  · obtain rfl : res = Except.ok () := hpre
    simp [ChromaClient.list_collections, hc, hu, ht, hs]
  · obtain rfl : res = Except.ok () := hpre
    simp [ChromaClient.reset, hc, hu, ht, hs]

/-- C1, witness: concrete non-success statuses for the three
status-checking operations, each yielding the corresponding
`ResponseStatusError`. -/
theorem C1_status_errors_witness :
    (ChromaClient.delete_collection tMeth clientA "x").2 =
      Except.error
        (ChromaClientError.ResponseStatusError
          "Failed to delete collection with status code: 500") ∧
    (ChromaClient.list_collections tQuery404 clientA).2 =
      Except.error
        (ChromaClientError.ResponseStatusError
          "Failed to list collections with status code: 404") ∧
    (ChromaClient.reset tMeth clientA).2 =
      Except.error
        (ChromaClientError.ResponseStatusError
          "Failed to reset with status code: 500 - make sure ALLOW_RESET=TRUE") :=
  ⟨(C1_status_errors tMeth clientA "x").1 _ ⟨500, Except.ok Json.null⟩ rfl rfl rfl rfl,
   ((C1_status_errors tQuery404 clientA "x").2.1 _ ⟨404, Except.ok Json.null⟩ rfl rfl rfl rfl),
   ((C1_status_errors tMeth clientA "x").2.2 _ ⟨500, Except.ok Json.null⟩ rfl rfl rfl rfl)⟩

/-- C4, amended: `Content-Type: application/json` is attached at call time
by the operations that send a body (`create_collection`,
`get_or_create_collection`) and also by the bodiless `delete_collection`;
the other bodiless operations (`heartbeat`, `get_collection`,
`list_collections`, `reset`, `version`) send exactly the client's default
headers; and the default header set built at construction contains no
`content-type` entry unless the caller supplied one. -/
theorem C4_content_type (t : Transport) (c : ChromaClient) (n : String)
    (md : Option (List (String × String))) :
    (∀ p : ChromaClientParams, p.headers = none →
      (ChromaClient.new p).headers.get "content-type" = none) ∧
    (∀ plog u,
      ChromaClient.check_pre_flight_status t c = (plog, Except.ok ()) →
      ((ChromaClient.get_url c "api/v1/heartbeat" = Except.ok u →
        (ChromaClient.heartbeat t c).1 = plog ++ [⟨Method.GET, u, c.headers, none⟩]) ∧
       (ChromaClient.get_url_with_params c "api/v1/collections" = Except.ok u →
        (ChromaClient.create_collection t c n md).1 =
          plog ++
            [⟨Method.POST, u, c.headers.insert "content-type" "application/json",
              some (CreateCollectionRequest.toJson ⟨n, md, false⟩)⟩] ∧
        (ChromaClient.get_or_create_collection t c n md).1 =
          plog ++
            [⟨Method.POST, u, c.headers.insert "content-type" "application/json",
              some (CreateCollectionRequest.toJson ⟨n, md, true⟩)⟩] ∧
        (ChromaClient.list_collections t c).1 = plog ++ [⟨Method.GET, u, c.headers, none⟩]) ∧
       (ChromaClient.get_url_with_params c ("api/v1/collections/" ++ n) = Except.ok u →
        (ChromaClient.get_collection t c n).1 = plog ++ [⟨Method.GET, u, c.headers, none⟩] ∧
        (ChromaClient.delete_collection t c n).1 =
          plog ++
            [⟨Method.DELETE, u, c.headers.insert "content-type" "application/json", none⟩]) ∧
       (ChromaClient.get_url c "api/v1/reset" = Except.ok u →
        (ChromaClient.reset t c).1 = plog ++ [⟨Method.POST, u, c.headers, none⟩]) ∧
       (ChromaClient.get_url c "api/v1/version" = Except.ok u →
        (ChromaClient.version t c).1 = plog ++ [⟨Method.GET, u, c.headers, none⟩]))) := by
  constructor
  · intro p hp
    simp only [ChromaClient.new, hp]
    rfl
  · intro plog u hc
    refine ⟨?_, ?_, ?_, ?_, ?_⟩
    · intro hu
      simp [ChromaClient.heartbeat, hc, hu]
    · intro hu
      refine ⟨?_, ?_, ?_⟩
      · simp [ChromaClient.create_collection, hc, hu]
      · simp [ChromaClient.get_or_create_collection, hc, hu]
      · simp [ChromaClient.list_collections, hc, hu]
    · intro hu
      refine ⟨?_, ?_⟩
      · simp [ChromaClient.get_collection, hc, hu]
      · simp [ChromaClient.delete_collection, hc, hu]
    · intro hu
      simp [ChromaClient.reset, hc, hu]
    · intro hu
      simp [ChromaClient.version, hc, hu]

/-- C4, witness: the amended claim at the default client — `reset` sends
exactly the default headers while `delete_collection` adds `content-type`,
and a construction without caller headers yields no `content-type`. -/
theorem C4_content_type_witness :
    (ChromaClient.new ChromaClientParams.default).headers.get "content-type" = none ∧
    (ChromaClient.reset tOkNull clientA).1 =
      [preReqA] ++
        [⟨Method.POST,
          ⟨"http", "localhost", some "8000", ["api", "v1", "reset"], none, none⟩,
          [("accept", "application/json")], none⟩] ∧
    (ChromaClient.delete_collection tOkNull clientA "x").1 =
      [preReqA] ++
        [⟨Method.DELETE,
          ⟨"http", "localhost", some "8000", ["api", "v1", "collections", "x"],
           some "tenant=default_tenant&database=default_database", none⟩,
          HeaderMap.insert [("accept", "application/json")] "content-type" "application/json",
          none⟩] :=
  ⟨(C4_content_type tOkNull clientA "x" none).1 ChromaClientParams.default rfl,
   ((C4_content_type tOkNull clientA "x" none).2 [preReqA] _ rfl).2.2.2.1 rfl,
   (((C4_content_type tOkNull clientA "x" none).2 [preReqA] _ rfl).2.2.1 rfl).2⟩

theorem getFieldStrict_missing (fs : List (String × Json)) (k : String)
    (h : fs.all (fun p => p.1 != k) = true) :
    getFieldStrict fs k = Except.error ("missing field " ++ k) := by
  unfold getFieldStrict
  have hf : fs.filter (fun p => p.1 == k) = [] := by
    apply List.filter_eq_nil_iff.mpr
    intro a ha
    simpa using List.all_eq_true.mp h a ha
  rw [hf]

theorem createResp_missing_id (fs : List (String × Json))
    (h : fs.all (fun p => p.1 != "id") = true) :
    ∃ e, CreateCollectionResponse.from_json (Json.obj fs) = Except.error e := by
  simp only [CreateCollectionResponse.from_json]
  rcases hn : requiredString fs "name" with e1 | name
  · exact ⟨e1, rfl⟩
  · have hid : requiredString fs "id" = Except.error ("missing field " ++ "id") := by
      unfold requiredString
      rw [getFieldStrict_missing fs "id" h]
    simp only [hid]
    exact ⟨_, rfl⟩

theorem collection_missing_id (fs : List (String × Json))
    (h : fs.all (fun p => p.1 != "id") = true) :
    ∃ e, Collection.from_json (Json.obj fs) = Except.error e := by
  simp only [Collection.from_json]
  rcases hn : requiredString fs "name" with e1 | name
  · exact ⟨e1, rfl⟩
  · have hid : requiredString fs "id" = Except.error ("missing field " ++ "id") := by
      unfold requiredString
      rw [getFieldStrict_missing fs "id" h]
    simp only [hid]
    exact ⟨_, rfl⟩

theorem heartbeatResp_missing (fs : List (String × Json))
    (h : fs.all (fun p => p.1 != "nanosecond heartbeat") = true) :
    ∃ e, HeartbeatResponse.from_json (Json.obj fs) = Except.error e := by
  simp only [HeartbeatResponse.from_json]
  rw [getFieldStrict_missing fs _ h]
  exact ⟨_, rfl⟩

/-- C7: a response body that is valid JSON (here: any JSON object) but
lacks a field required by the operation's shape — `id` for the collection
decoders, `nanosecond heartbeat` for the heartbeat decoder — makes the
operation return a `ResponseParseError` Failure; the embedding is total, so
no input can make it panic. -/
theorem C7_missing_field_parse_error (t : Transport) (c : ChromaClient) (n : String)
    (md : Option (List (String × String))) :
    (∀ u resp fs,
      (ChromaClient.check_pre_flight_status t c).2 = Except.ok () →
      ChromaClient.get_url_with_params c "api/v1/collections" = Except.ok u →
      t ⟨Method.POST, u, c.headers.insert "content-type" "application/json",
         some (CreateCollectionRequest.toJson ⟨n, md, false⟩)⟩ = Except.ok resp →
      resp.body = Except.ok (Json.obj fs) →
      fs.all (fun p => p.1 != "id") = true →
      resultIsParseError (ChromaClient.create_collection t c n md).2 = true) ∧
    (∀ u resp fs,
      (ChromaClient.check_pre_flight_status t c).2 = Except.ok () →
      ChromaClient.get_url_with_params c "api/v1/collections" = Except.ok u →
      t ⟨Method.POST, u, c.headers.insert "content-type" "application/json",
         some (CreateCollectionRequest.toJson ⟨n, md, true⟩)⟩ = Except.ok resp →
      resp.body = Except.ok (Json.obj fs) →
      fs.all (fun p => p.1 != "id") = true →
      resultIsParseError (ChromaClient.get_or_create_collection t c n md).2 = true) ∧
    (∀ u resp fs,
      (ChromaClient.check_pre_flight_status t c).2 = Except.ok () →
      ChromaClient.get_url_with_params c ("api/v1/collections/" ++ n) = Except.ok u →
      t ⟨Method.GET, u, c.headers, none⟩ = Except.ok resp →
      resp.body = Except.ok (Json.obj fs) →
      fs.all (fun p => p.1 != "id") = true →
      resultIsParseError (ChromaClient.get_collection t c n).2 = true) ∧
    (∀ u resp fs,
      (ChromaClient.check_pre_flight_status t c).2 = Except.ok () →
      ChromaClient.get_url c "api/v1/heartbeat" = Except.ok u →
      t ⟨Method.GET, u, c.headers, none⟩ = Except.ok resp →
      resp.body = Except.ok (Json.obj fs) →
      fs.all (fun p => p.1 != "nanosecond heartbeat") = true →
      resultIsParseError (ChromaClient.heartbeat t c).2 = true) := by
  refine ⟨?_, ?_, ?_, ?_⟩ <;> intro u resp fs hpre hu ht hb hno <;>
    rcases hc : ChromaClient.check_pre_flight_status t c with ⟨plog, res⟩ <;>
    rw [hc] at hpre
  · obtain rfl : res = Except.ok () := hpre
    obtain ⟨e, he⟩ := createResp_missing_id fs hno
    simp [ChromaClient.create_collection, hc, hu, ht, hb, he, resultIsParseError]
  · obtain rfl : res = Except.ok () := hpre
    obtain ⟨e, he⟩ := createResp_missing_id fs hno
    simp [ChromaClient.get_or_create_collection, hc, hu, ht, hb, he, resultIsParseError]
  · obtain rfl : res = Except.ok () := hpre
    obtain ⟨e, he⟩ := collection_missing_id fs hno
    simp [ChromaClient.get_collection, hc, hu, ht, hb, he, resultIsParseError]
  · obtain rfl : res = Except.ok () := hpre
    obtain ⟨e, he⟩ := heartbeatResp_missing fs hno
    simp [ChromaClient.heartbeat, hc, hu, ht, hb, he, resultIsParseError]

/-- C7, witness: a transport that answers the scoped create request with
the valid JSON object `{"name": "john-doe-collection"}` (no `id`) makes
`create_collection` fail with a `ResponseParseError`. -/
theorem C7_missing_field_parse_error_witness :
    resultIsParseError
      (ChromaClient.create_collection tNoId clientA "john-doe-collection" none).2 = true :=
  (C7_missing_field_parse_error tNoId clientA "john-doe-collection" none).1
    _ ⟨200, Except.ok (Json.obj [("name", Json.str "john-doe-collection")])⟩
    [("name", Json.str "john-doe-collection")] rfl rfl rfl rfl rfl

theorem check_log_map_body (t : Transport) (c : ChromaClient) (f : Json → Json) :
    (ChromaClient.check_pre_flight_status t c).1.map (Request.mapBody f) =
      (ChromaClient.check_pre_flight_status t c).1 := by
  unfold ChromaClient.check_pre_flight_status
  rcases hp : parseUrl (c.path ++ "/api/v1/pre-flight-checks") with e | u <;>
    simp [Request.mapBody]

/-- C9: `get_or_create_collection` is `create_collection` with the
`get_or_create` flag of the request body flipped to `true` and nothing else
changed: for a transport that does not distinguish the two bodies, both
operations produce the same result (same URL, same headers, same decoding),
and their request logs agree up to exactly that one body field. -/
theorem C9_create_get_or_create_equiv (t : Transport) (c : ChromaClient) (n : String)
    (md : Option (List (String × String)))
    (hblind : ∀ m u hd,
      t ⟨m, u, hd, some (CreateCollectionRequest.toJson ⟨n, md, true⟩)⟩ =
      t ⟨m, u, hd, some (CreateCollectionRequest.toJson ⟨n, md, false⟩)⟩) :
    (ChromaClient.get_or_create_collection t c n md).2 =
      (ChromaClient.create_collection t c n md).2 ∧
    (ChromaClient.get_or_create_collection t c n md).1 =
      (ChromaClient.create_collection t c n md).1.map
        (Request.mapBody (Json.setField "get_or_create" (Json.bool true))) ∧
    CreateCollectionRequest.toJson ⟨n, md, true⟩ =
      Json.setField "get_or_create" (Json.bool true)
        (CreateCollectionRequest.toJson ⟨n, md, false⟩) := by
  have hbody : Json.setField "get_or_create" (Json.bool true)
      (CreateCollectionRequest.toJson ⟨n, md, false⟩) =
      CreateCollectionRequest.toJson ⟨n, md, true⟩ := rfl
  rcases hc : ChromaClient.check_pre_flight_status t c with ⟨plog, res⟩
  have hplog : plog.map (Request.mapBody (Json.setField "get_or_create" (Json.bool true))) =
      plog := by
    have h0 := check_log_map_body t c (Json.setField "get_or_create" (Json.bool true))
    rw [hc] at h0
    exact h0
  refine ⟨?_, ?_, hbody.symm⟩ <;> rcases res with eP | u0
  · simp [ChromaClient.get_or_create_collection, ChromaClient.create_collection, hc]
  · rcases hu : ChromaClient.get_url_with_params c "api/v1/collections" with e1 | u1
    · simp [ChromaClient.get_or_create_collection, ChromaClient.create_collection, hc, hu]
    · have hteq := hblind Method.POST u1 (c.headers.insert "content-type" "application/json")
      simp [ChromaClient.get_or_create_collection, ChromaClient.create_collection, hc, hu, hteq]
  · simp [ChromaClient.get_or_create_collection, ChromaClient.create_collection, hc, hplog]
  · rcases hu : ChromaClient.get_url_with_params c "api/v1/collections" with e1 | u1
    · simp [ChromaClient.get_or_create_collection, ChromaClient.create_collection, hc, hu, hplog]
    · simp [ChromaClient.get_or_create_collection, ChromaClient.create_collection, hc, hu,
        hplog, Request.mapBody, hbody]

/-- C9, witness: under a constant transport (which cannot distinguish the
two bodies) the two operations agree as the theorem states. -/
theorem C9_create_get_or_create_equiv_witness :
    (ChromaClient.get_or_create_collection tOkNull clientA "john-doe-collection" none).2 =
      (ChromaClient.create_collection tOkNull clientA "john-doe-collection" none).2 ∧
    (ChromaClient.get_or_create_collection tOkNull clientA "john-doe-collection" none).1 =
      (ChromaClient.create_collection tOkNull clientA "john-doe-collection" none).1.map
        (Request.mapBody (Json.setField "get_or_create" (Json.bool true))) ∧
    CreateCollectionRequest.toJson ⟨"john-doe-collection", none, true⟩ =
      Json.setField "get_or_create" (Json.bool true)
        (CreateCollectionRequest.toJson ⟨"john-doe-collection", none, false⟩) :=
  C9_create_get_or_create_equiv tOkNull clientA "john-doe-collection" none
    (fun _ _ _ => rfl)

/-- C5: every substantive operation runs the pre-flight check first: its
request log extends the pre-flight log (first conjunct bundle: whenever the
pre-flight check fails, the operation returns exactly the pre-flight
failure and issues nothing beyond the pre-flight traffic), and in all cases
the operation's requests start with the pre-flight requests. -/
theorem C5_preflight_gate (t : Transport) (c : ChromaClient) (n : String)
    (md : Option (List (String × String))) (e : ChromaClientError) :
    ((ChromaClient.check_pre_flight_status t c).2 = Except.error e →
      ChromaClient.heartbeat t c = ((ChromaClient.check_pre_flight_status t c).1, Except.error e) ∧
      ChromaClient.create_collection t c n md = ((ChromaClient.check_pre_flight_status t c).1, Except.error e) ∧
      ChromaClient.get_collection t c n = ((ChromaClient.check_pre_flight_status t c).1, Except.error e) ∧
      ChromaClient.get_or_create_collection t c n md = ((ChromaClient.check_pre_flight_status t c).1, Except.error e) ∧
      ChromaClient.delete_collection t c n = ((ChromaClient.check_pre_flight_status t c).1, Except.error e) ∧
      ChromaClient.list_collections t c = ((ChromaClient.check_pre_flight_status t c).1, Except.error e) ∧
      ChromaClient.reset t c = ((ChromaClient.check_pre_flight_status t c).1, Except.error e) ∧
      ChromaClient.version t c = ((ChromaClient.check_pre_flight_status t c).1, Except.error e)) ∧
    ((∃ r, (ChromaClient.heartbeat t c).1 = (ChromaClient.check_pre_flight_status t c).1 ++ r) ∧
     (∃ r, (ChromaClient.create_collection t c n md).1 = (ChromaClient.check_pre_flight_status t c).1 ++ r) ∧
     (∃ r, (ChromaClient.get_collection t c n).1 = (ChromaClient.check_pre_flight_status t c).1 ++ r) ∧
     (∃ r, (ChromaClient.get_or_create_collection t c n md).1 = (ChromaClient.check_pre_flight_status t c).1 ++ r) ∧
     (∃ r, (ChromaClient.delete_collection t c n).1 = (ChromaClient.check_pre_flight_status t c).1 ++ r) ∧
     (∃ r, (ChromaClient.list_collections t c).1 = (ChromaClient.check_pre_flight_status t c).1 ++ r) ∧
     (∃ r, (ChromaClient.reset t c).1 = (ChromaClient.check_pre_flight_status t c).1 ++ r) ∧
     (∃ r, (ChromaClient.version t c).1 = (ChromaClient.check_pre_flight_status t c).1 ++ r)) := by
  constructor
  · intro h
    rcases hc : ChromaClient.check_pre_flight_status t c with ⟨plog, res⟩
    rw [hc] at h
    obtain rfl : res = Except.error e := h
    refine ⟨?_, ?_, ?_, ?_, ?_, ?_, ?_, ?_⟩ <;>
      simp [ChromaClient.heartbeat, ChromaClient.create_collection,
        ChromaClient.get_collection, ChromaClient.get_or_create_collection,
        ChromaClient.delete_collection, ChromaClient.list_collections,
        ChromaClient.reset, ChromaClient.version, hc]
  · rcases hc : ChromaClient.check_pre_flight_status t c with ⟨plog, res⟩
    rcases res with eP | u
    · exact
        ⟨⟨[], by simp [ChromaClient.heartbeat, hc]⟩,
         ⟨[], by simp [ChromaClient.create_collection, hc]⟩,
         ⟨[], by simp [ChromaClient.get_collection, hc]⟩,
         ⟨[], by simp [ChromaClient.get_or_create_collection, hc]⟩,
         ⟨[], by simp [ChromaClient.delete_collection, hc]⟩,
         ⟨[], by simp [ChromaClient.list_collections, hc]⟩,
         ⟨[], by simp [ChromaClient.reset, hc]⟩,
         ⟨[], by simp [ChromaClient.version, hc]⟩⟩
    · refine ⟨?_, ?_, ?_, ?_, ?_, ?_, ?_, ?_⟩
      · rcases hu : ChromaClient.get_url c "api/v1/heartbeat" with e1 | u1 <;>
          simp [ChromaClient.heartbeat, hc, hu]
      · rcases hu : ChromaClient.get_url_with_params c "api/v1/collections" with e1 | u1 <;>
          simp [ChromaClient.create_collection, hc, hu]
      · rcases hu : ChromaClient.get_url_with_params c ("api/v1/collections/" ++ n) with e1 | u1 <;>
          simp [ChromaClient.get_collection, hc, hu]
      · rcases hu : ChromaClient.get_url_with_params c "api/v1/collections" with e1 | u1 <;>
          simp [ChromaClient.get_or_create_collection, hc, hu]
      · rcases hu : ChromaClient.get_url_with_params c ("api/v1/collections/" ++ n) with e1 | u1 <;>
          simp [ChromaClient.delete_collection, hc, hu]
      · rcases hu : ChromaClient.get_url_with_params c "api/v1/collections" with e1 | u1 <;>
          simp [ChromaClient.list_collections, hc, hu]
      · rcases hu : ChromaClient.get_url c "api/v1/reset" with e1 | u1 <;>
          simp [ChromaClient.reset, hc, hu]
      · rcases hu : ChromaClient.get_url c "api/v1/version" with e1 | u1 <;>
          simp [ChromaClient.version, hc, hu]

/-- C5, witness: with a transport that refuses every connection the
pre-flight check fails, and `heartbeat` returns exactly that pre-flight
failure. -/
theorem C5_preflight_gate_witness :
    (ChromaClient.check_pre_flight_status tSendFail clientA).2 =
      Except.error (ChromaClientError.RequestError "connection refused") ∧
    ChromaClient.heartbeat tSendFail clientA =
      ((ChromaClient.check_pre_flight_status tSendFail clientA).1,
       Except.error (ChromaClientError.RequestError "connection refused")) :=
  ⟨rfl,
   ((C5_preflight_gate tSendFail clientA "x" none
      (ChromaClientError.RequestError "connection refused")).1 rfl).1⟩


/-! ## URL model: encoding, dot-segment and round-trip lemmas

The remaining lemmas establish that the URL model's serializer and parser
are mutually inverse on the URLs the client builds, and that
form-urlencoding round-trips ASCII pairs; they culminate in the scoped-URL
round-trip (C6) and the heartbeat request/decode theorem (C8). -/


theorem char_toNat_lt (c : Char) : c.toNat < 1114112 := by
  have he : c.toNat = c.val.toNat := rfl
  have h := c.valid
  rcases h with h | ⟨h1, h2⟩
  · have h3 : c.val.toNat < 55296 := h
    omega
  · have h3 : c.val.toNat < 1114112 := h2
    omega

theorem utf8Bytes_lt256 (c : Char) : ∀ b ∈ utf8Bytes c, b < 256 := by
  intro b hb
  have hlt := char_toNat_lt c
  simp only [utf8Bytes] at hb
  split at hb
  · simp at hb
    omega
  · split at hb
    · simp at hb
      rcases hb with rfl | rfl <;> omega
    · split at hb
      · simp at hb
        rcases hb with rfl | rfl | rfl <;> omega
      · simp at hb
        rcases hb with rfl | rfl | rfl | rfl <;> omega

theorem hexU_codes : ∀ d, d < 16 →
    (48 ≤ (hexU d).toNat ∧ (hexU d).toNat ≤ 57) ∨
    (65 ≤ (hexU d).toNat ∧ (hexU d).toNat ≤ 70) := by
  decide

theorem pctByte_codes (b : Nat) (hb : b < 256) :
    ∀ d ∈ pctByte b, d.toNat = 37 ∨ (48 ≤ d.toNat ∧ d.toNat ≤ 57) ∨
      (65 ≤ d.toNat ∧ d.toNat ≤ 70) := by
  intro d hd
  unfold pctByte at hd
  simp only [List.mem_cons, List.mem_singleton, List.not_mem_nil, or_false] at hd
  rcases hd with rfl | rfl | rfl
  · left
    rfl
  · rcases hexU_codes (b / 16) (by omega) with h | h
    · exact Or.inr (Or.inl h)
    · exact Or.inr (Or.inr h)
  · rcases hexU_codes (b % 16) (by omega) with h | h
    · exact Or.inr (Or.inl h)
    · exact Or.inr (Or.inr h)

theorem pathEncNeeded_false_of (c : Char) (hge : 33 ≤ c.toNat) (hle : c.toNat ≤ 126)
    (h : c.toNat ≠ 34 ∧ c.toNat ≠ 60 ∧ c.toNat ≠ 62 ∧ c.toNat ≠ 96 ∧
         c.toNat ≠ 123 ∧ c.toNat ≠ 125) :
    pathEncNeeded c = false := by
  obtain ⟨h1, h2, h3, h4, h5, h6⟩ := h
  simp only [pathEncNeeded, Bool.or_eq_false_iff, decide_eq_false_iff_not]
  refine ⟨⟨⟨⟨⟨⟨⟨by omega, by omega⟩, ?_⟩, ?_⟩, ?_⟩, ?_⟩, ?_⟩, ?_⟩ <;> intro he <;> subst he
  · exact absurd rfl h1
  · exact absurd rfl h2
  · exact absurd rfl h3
  · exact absurd rfl h4
  · exact absurd rfl h5
  · exact absurd rfl h6

theorem queryEncNeeded_false_of (c : Char) (hge : 33 ≤ c.toNat) (hle : c.toNat ≤ 126)
    (h : c.toNat ≠ 34 ∧ c.toNat ≠ 35 ∧ c.toNat ≠ 60 ∧ c.toNat ≠ 62 ∧ c.toNat ≠ 39) :
    queryEncNeeded c = false := by
  obtain ⟨h1, h2, h3, h4, h5⟩ := h
  simp only [queryEncNeeded, Bool.or_eq_false_iff, decide_eq_false_iff_not]
  refine ⟨⟨⟨⟨⟨⟨by omega, by omega⟩, ?_⟩, ?_⟩, ?_⟩, ?_⟩, ?_⟩ <;> intro he <;> subst he
  · exact absurd rfl h1
  · exact absurd rfl h2
  · exact absurd rfl h3
  · exact absurd rfl h4
  · exact absurd rfl h5

/-- A percent-triple character (`%` or an upper-case hex digit) is inert:
not re-encoded and not a structural delimiter. -/
theorem pct_out_char (d : Char)
    (h : d.toNat = 37 ∨ (48 ≤ d.toNat ∧ d.toNat ≤ 57) ∨
         (65 ≤ d.toNat ∧ d.toNat ≤ 70)) :
    pathEncNeeded d = false ∧ queryEncNeeded d = false ∧ d ≠ '/' ∧ d ≠ '\\' ∧
    d ≠ '?' ∧ d ≠ '#' ∧ d ≠ '&' ∧ d ≠ '=' := by
  have e1 : ('/' : Char).toNat = 47 := rfl
  have e2 : ('\\' : Char).toNat = 92 := rfl
  have e3 : ('?' : Char).toNat = 63 := rfl
  have e4 : ('#' : Char).toNat = 35 := rfl
  have e5 : ('&' : Char).toNat = 38 := rfl
  have e6 : ('=' : Char).toNat = 61 := rfl
  rcases h with h1 | ⟨h1, h2⟩ | ⟨h1, h2⟩ <;>
    exact ⟨pathEncNeeded_false_of d (by omega) (by omega) (by omega),
           queryEncNeeded_false_of d (by omega) (by omega) (by omega),
           char_ne_of_toNat _ _ (by omega), char_ne_of_toNat _ _ (by omega),
           char_ne_of_toNat _ _ (by omega), char_ne_of_toNat _ _ (by omega),
           char_ne_of_toNat _ _ (by omega), char_ne_of_toNat _ _ (by omega)⟩

theorem pathEncChar_out (c d : Char)
    (hcsep : c ≠ '/' ∧ c ≠ '\\' ∧ c ≠ '?' ∧ c ≠ '#')
    (hd : d ∈ pathEncChar c) :
    pathEncNeeded d = false ∧ d ≠ '/' ∧ d ≠ '\\' ∧ d ≠ '?' ∧ d ≠ '#' := by
  unfold pathEncChar at hd
  rcases hpe : pathEncNeeded c with _ | _
  · rw [hpe] at hd
    simp at hd
    subst hd
    exact ⟨hpe, hcsep⟩
  · rw [hpe] at hd
    simp only [if_true] at hd
    rw [List.mem_flatMap] at hd
    obtain ⟨b, hb, hdb⟩ := hd
    have hb256 := utf8Bytes_lt256 c b hb
    obtain ⟨hq1, hq2, hq3, hq4, hq5, hq6, hq7, hq8⟩ :=
      pct_out_char d (pctByte_codes b hb256 d hdb)
    exact ⟨hq1, hq3, hq4, hq5, hq6⟩

theorem splitSegs_ne_nil (cs : List Char) : splitSegs cs ≠ [] := by
  induction cs with
  | nil => simp [splitSegs]
  | cons c rest ih =>
    rw [splitSegs]
    split
    · simp
    · cases hs : splitSegs rest with
      | nil => exact absurd hs ih
      | cons s ss => simp [consHead]

theorem splitSegs_chars (cs : List Char) :
    ∀ s ∈ splitSegs cs, ∀ c ∈ s, c ∈ cs ∧ c ≠ '/' ∧ c ≠ '\\' := by
  induction cs with
  | nil =>
    intro s hs c hc
    simp [splitSegs] at hs
    subst hs
    cases hc
  | cons c0 rest ih =>
    intro s hs c hc
    rw [splitSegs] at hs
    by_cases hsep : c0 = '/' ∨ c0 = '\\'
    · rw [if_pos (by simpa using hsep)] at hs
      rcases List.mem_cons.mp hs with rfl | hs
      · cases hc
      · obtain ⟨h1, h2, h3⟩ := ih s hs c hc
        exact ⟨by simp [h1], h2, h3⟩
    · rw [if_neg (by simpa using hsep)] at hs
      push_neg at hsep
      cases hsegs : splitSegs rest with
      | nil => exact absurd hsegs (splitSegs_ne_nil rest)
      | cons s1 ss =>
        rw [hsegs] at hs
        simp only [consHead, List.mem_cons] at hs
        rcases hs with hs | hs
        · subst hs
          rcases List.mem_cons.mp hc with rfl | hc2
          · exact ⟨by simp, hsep.1, hsep.2⟩
          · obtain ⟨h1, h2, h3⟩ := ih s1 (by simp [hsegs]) c hc2
            exact ⟨by simp [h1], h2, h3⟩
        · obtain ⟨h1, h2, h3⟩ := ih s (by simp [hsegs, hs]) c hc
          exact ⟨by simp [h1], h2, h3⟩

theorem removeDotSegs_mem :
    ∀ (L acc : List (List Char)) (s : List Char), s ∈ removeDotSegs acc L →
      s ∈ acc ∨ s = [] ∨ s ∈ L := by
  intro L
  induction L with
  | nil =>
    intro acc s hs
    rw [removeDotSegs.eq_def] at hs
    simp only [] at hs
    exact Or.inl (List.mem_reverse.mp hs)
  | cons s0 rest ih =>
    intro acc s hs
    rw [removeDotSegs.eq_def] at hs
    simp only [] at hs
    cases rest with
    | nil =>
      simp only [] at hs
      split at hs
      · rcases List.mem_append.mp hs with h | h
        · exact Or.inl (List.mem_of_mem_drop (List.mem_reverse.mp h))
        · simp at h
          exact Or.inr (Or.inl h)
      · split at hs
        · rcases List.mem_append.mp hs with h | h
          · exact Or.inl (List.mem_reverse.mp h)
          · simp at h
            exact Or.inr (Or.inl h)
        · rcases List.mem_cons.mp (List.mem_reverse.mp hs) with rfl | h
          · exact Or.inr (Or.inr (by simp))
          · exact Or.inl h
    | cons s1 rest2 =>
      simp only [] at hs
      rcases ih _ s hs with h | h | h
      · split at h
        · exact Or.inl (List.mem_of_mem_drop h)
        · split at h
          · exact Or.inl h
          · rcases List.mem_cons.mp h with rfl | h2
            · exact Or.inr (Or.inr (by simp))
            · exact Or.inl h2
      · exact Or.inr (Or.inl h)
      · exact Or.inr (Or.inr (by simp [h]))

theorem removeDotSegs_nodot :
    ∀ (L acc : List (List Char)),
      (∀ s ∈ acc, isSingleDotSeg s = false ∧ isDoubleDotSeg s = false) →
      ∀ s ∈ removeDotSegs acc L, isSingleDotSeg s = false ∧ isDoubleDotSeg s = false := by
  intro L
  induction L with
  | nil =>
    intro acc hacc s hs
    rw [removeDotSegs.eq_def] at hs
    simp only [] at hs
    exact hacc s (List.mem_reverse.mp hs)
  | cons s0 rest ih =>
    intro acc hacc s hs
    rw [removeDotSegs.eq_def] at hs
    simp only [] at hs
    cases rest with
    | nil =>
      simp only [] at hs
      split at hs
      · rcases List.mem_append.mp hs with h | h
        · exact hacc s (List.mem_of_mem_drop (List.mem_reverse.mp h))
        · simp at h
          subst h
          exact ⟨by decide, by decide⟩
      · split at hs
        · rcases List.mem_append.mp hs with h | h
          · exact hacc s (List.mem_reverse.mp h)
          · simp at h
            subst h
            exact ⟨by decide, by decide⟩
        · rcases List.mem_cons.mp (List.mem_reverse.mp hs) with rfl | h
          · rename_i hdd hsd
            exact ⟨by simpa using hsd, by simpa using hdd⟩
          · exact hacc s h
    | cons s1 rest2 =>
      simp only [] at hs
      refine ih _ ?_ s hs
      intro x hx
      split at hx
      · exact hacc x (List.mem_of_mem_drop hx)
      · split at hx
        · exact hacc x hx
        · rcases List.mem_cons.mp hx with rfl | h2
          · rename_i hdd hsd
            exact ⟨by simpa using hsd, by simpa using hdd⟩
          · exact hacc x h2

theorem removeDotSegs_id :
    ∀ (L acc : List (List Char)),
      (∀ s ∈ L, isSingleDotSeg s = false ∧ isDoubleDotSeg s = false) →
      removeDotSegs acc L = acc.reverse ++ L := by
  intro L
  induction L with
  | nil =>
    intro acc _
    rw [removeDotSegs.eq_def]
    simp
  | cons s0 rest ih =>
    intro acc hL
    obtain ⟨hsd, hdd⟩ := hL s0 (by simp)
    rw [removeDotSegs.eq_def]
    simp only []
    cases rest with
    | nil =>
      simp only [hdd, hsd, Bool.false_eq_true, if_false]
      simp
    | cons s1 rest2 =>
      simp only [hdd, hsd, Bool.false_eq_true, if_false]
      rw [ih (s0 :: acc) (fun x hx => hL x (by simp [hx]))]
      simp

theorem removeDotSegs_ne_nil :
    ∀ (L acc : List (List Char)), L ≠ [] → removeDotSegs acc L ≠ [] := by
  intro L
  induction L with
  | nil => exact fun acc h => absurd rfl h
  | cons s0 rest ih =>
    intro acc _
    rw [removeDotSegs.eq_def]
    simp only []
    cases rest with
    | nil =>
      simp only []
      split
      · simp
      · split
        · simp
        · simp
    | cons s1 rest2 =>
      simp only []
      exact ih _ (List.cons_ne_nil _ _)

theorem flatMap_id_chars (f : Char → List Char) (s : List Char)
    (h : ∀ c ∈ s, f c = [c]) : s.flatMap f = s := by
  induction s with
  | nil => rfl
  | cons c l ih =>
    rw [List.flatMap_cons, h c (by simp), ih (fun x hx => h x (by simp [hx]))]
    rfl

theorem pathEncSeg_id (s : List Char) (h : ∀ c ∈ s, pathEncNeeded c = false) :
    pathEncSeg s = s :=
  flatMap_id_chars _ s (fun c hc => by simp [pathEncChar, h c hc])

theorem queryFlat_id (q : List Char) (h : ∀ c ∈ q, queryEncNeeded c = false) :
    q.flatMap queryEncChar = q :=
  flatMap_id_chars _ q (fun c hc => by simp [queryEncChar, h c hc])

theorem joinSegsChars_chars (L : List (List Char)) :
    ∀ c ∈ joinSegsChars L, (∃ s ∈ L, c ∈ s) ∨ c = '/' := by
  induction L with
  | nil =>
    intro c hc
    cases hc
  | cons s rest ih =>
    intro c hc
    rw [joinSegsChars.eq_def] at hc
    simp only [] at hc
    cases rest with
    | nil =>
      exact Or.inl ⟨s, by simp, hc⟩
    | cons s2 L2 =>
      simp only [] at hc
      rcases List.mem_append.mp hc with h | h
      · exact Or.inl ⟨s, by simp, h⟩
      · rcases List.mem_cons.mp h with rfl | h2
        · exact Or.inr rfl
        · rcases ih c h2 with ⟨s3, hs3, hcs3⟩ | h3
          · exact Or.inl ⟨s3, by simp [hs3], hcs3⟩
          · exact Or.inr h3

theorem parseAfterScheme_origin (sch host port : String) (rel : List Char)
    (hh : hostOk host = true) (hp : portOk port = true)
    (hrel : ∀ c ∈ rel, c ≠ '?' ∧ c ≠ '#') :
    parseAfterScheme sch (host.data ++ ':' :: port.data ++ '/' :: rel) =
      Except.ok ⟨sch, host, canonPort sch port, relSegsChars rel, none, none⟩ := by
  obtain ⟨hhne, hhchars⟩ := hostOk_parts host hh
  obtain ⟨hpne, hpdig, hplead, hpbound⟩ := portOk_parts port hp
  have hgroup : host.data ++ ':' :: port.data ++ '/' :: rel =
      (host.data ++ ':' :: port.data) ++ '/' :: rel := by simp
  have hauth : ∀ c ∈ host.data ++ ':' :: port.data, (!authDelim c) = true := by
    intro c hc
    rcases List.mem_append.mp hc with h | h
    · simp [(hostChar_facts c (hhchars c h)).1]
    · rcases List.mem_cons.mp h with rfl | h2
      · decide
      · simp [(isDigitB_facts c (hpdig c h2)).1]
  simp only [parseAfterScheme]
  rw [hgroup, takeWhile_append_all _ _ _ hauth, dropWhile_append_all _ _ _ hauth]
  rw [show List.takeWhile (fun c => !authDelim c) ('/' :: rel) = [] from rfl]
  rw [show List.dropWhile (fun c => !authDelim c) ('/' :: rel) = '/' :: rel from rfl]
  rw [List.append_nil]
  rw [parseAuthority_hostport sch host port hh hp]
  simp only []
  rw [splitFirst_none '#' ('/' :: rel) (fun c hc => by
    rcases List.mem_cons.mp hc with rfl | h2
    · decide
    · exact (hrel c h2).2)]
  simp only []
  rw [splitFirst_none '?' ('/' :: rel) (fun c hc => by
    rcases List.mem_cons.mp hc with rfl | h2
    · decide
    · exact (hrel c h2).1)]
  rfl

theorem relOk_parts (rel : String) (hr : relOk rel = true) :
    ∀ c ∈ rel.data, c ≠ '?' ∧ c ≠ '#' := by
  intro c hc
  simp only [relOk, List.all_eq_true] at hr
  have := hr c hc
  simp only [Bool.and_eq_true, decide_eq_true_eq] at this
  exact this

theorem parseUrl_origin (sch host port rel : String)
    (hs : sch = "http" ∨ sch = "https") (hh : hostOk host = true) (hp : portOk port = true)
    (hr : relOk rel = true) :
    parseUrl (sch ++ "://" ++ host ++ ":" ++ port ++ "/" ++ rel) =
      Except.ok ⟨sch, host, canonPort sch port, relSegs rel, none, none⟩ := by
  have hrel := relOk_parts rel hr
  unfold parseUrl parseUrlChars
  rcases hs with rfl | rfl
  · have hdata : ("http" ++ "://" ++ host ++ ":" ++ port ++ "/" ++ rel).toList =
        httpChars ++ (host.data ++ ':' :: port.data ++ '/' :: rel.data) := by
      show ("http" ++ "://" ++ host ++ ":" ++ port ++ "/" ++ rel).data = _
      simp only [String.data_append]
      rw [show httpChars = ['h', 't', 't', 'p', ':', '/', '/'] from rfl]
      simp
    rw [hdata, schemeSplit_http]
    exact parseAfterScheme_origin "http" host port rel.data hh hp hrel
  · have hdata : ("https" ++ "://" ++ host ++ ":" ++ port ++ "/" ++ rel).toList =
        httpsChars ++ (host.data ++ ':' :: port.data ++ '/' :: rel.data) := by
      show ("https" ++ "://" ++ host ++ ":" ++ port ++ "/" ++ rel).data = _
      simp only [String.data_append]
      rw [show httpsChars = ['h', 't', 't', 'p', 's', ':', '/', '/'] from rfl]
      simp
    rw [hdata, schemeSplit_https]
    exact parseAfterScheme_origin "https" host port rel.data hh hp hrel

theorem formDecodeF_irrel :
    ∀ (n : Nat) (cs : List Char) (f g : Nat), cs.length ≤ n → cs.length ≤ f →
      cs.length ≤ g → formDecodeF f cs = formDecodeF g cs := by
  intro n
  induction n with
  | zero =>
    intro cs f g hn _ _
    have h0 : cs = [] := List.eq_nil_of_length_eq_zero (Nat.le_zero.mp hn)
    subst h0
    cases f <;> cases g <;> rfl
  | succ n ih =>
    intro cs f g hn hf hg
    cases cs with
    | nil => cases f <;> cases g <;> rfl
    | cons c rest =>
      cases f with
      | zero => simp at hf
      | succ f' =>
        cases g with
        | zero => simp at hg
        | succ g' =>
          simp only [List.length_cons] at hn hf hg
          by_cases hplus : c = '+'
          · subst hplus
            simp [formDecodeF]
            exact ih rest f' g' (by omega) (by omega) (by omega)
          · by_cases hpct : c = '%'
            · subst hpct
              cases rest with
              | nil => simp [formDecodeF]
              | cons h1 rtail =>
                cases rtail with
                | nil =>
                  simp only [List.length_cons, List.length_nil] at hn hf hg
                  simp [formDecodeF]
                  exact ih [h1] f' g'
                    (by simp only [List.length_cons, List.length_nil]; omega)
                    (by simp only [List.length_cons, List.length_nil]; omega)
                    (by simp only [List.length_cons, List.length_nil]; omega)
                | cons h2 rest2 =>
                  simp only [List.length_cons] at hn hf hg
                  by_cases hhex : (isHexDigitChar h1 && isHexDigitChar h2) = true
                  · simp [formDecodeF, hhex]
                    exact ih rest2 f' g' (by omega) (by omega) (by omega)
                  · simp [formDecodeF, hhex]
                    exact ih (h1 :: h2 :: rest2) f' g'
                      (by simp only [List.length_cons]; omega)
                      (by simp only [List.length_cons]; omega)
                      (by simp only [List.length_cons]; omega)
            · simp [formDecodeF, hplus, hpct]
              exact ih rest f' g' (by omega) (by omega) (by omega)

theorem formDecodeF_eq (cs : List Char) (fuel : Nat) (h : cs.length ≤ fuel) :
    formDecodeF fuel cs = formDecode cs :=
  formDecodeF_irrel cs.length cs fuel cs.length le_rfl h le_rfl

theorem formDecode_cons_safe (c : Char) (rest : List Char) (h1 : c ≠ '+') (h2 : c ≠ '%') :
    formDecode (c :: rest) = c :: formDecode rest := by
  simp only [formDecode, List.length_cons]
  simp [formDecodeF, h1, h2]

theorem formDecode_plus (rest : List Char) :
    formDecode ('+' :: rest) = ' ' :: formDecode rest := by
  simp only [formDecode, List.length_cons]
  simp [formDecodeF]

theorem hexU_isHex : ∀ d, d < 16 → isHexDigitChar (hexU d) = true := by
  decide

theorem hexVal_hexU : ∀ d, d < 16 → hexVal (hexU d) = d := by
  decide

theorem formDecode_pct (b : Nat) (hb : b < 256) (rest : List Char) :
    formDecode (pctByte b ++ rest) = Char.ofNat b :: formDecode rest := by
  have hh1 := hexU_isHex (b / 16) (by omega)
  have hh2 := hexU_isHex (b % 16) (by omega)
  have hb16 : 16 * hexVal (hexU (b / 16)) + hexVal (hexU (b % 16)) = b := by
    rw [hexVal_hexU (b / 16) (by omega), hexVal_hexU (b % 16) (by omega)]
    omega
  have hfd := formDecodeF_eq rest (rest.length + 2) (by omega)
  show formDecode ('%' :: hexU (b / 16) :: hexU (b % 16) :: rest) = _
  simp only [formDecode, List.length_cons]
  simp [formDecodeF, hh1, hh2, hb16, hfd]
  rfl

theorem formSafe_codes (c : Char) (h : formSafe c = true) :
    (48 ≤ c.toNat ∧ c.toNat ≤ 57) ∨ (65 ≤ c.toNat ∧ c.toNat ≤ 90) ∨
    (97 ≤ c.toNat ∧ c.toNat ≤ 122) ∨ c.toNat = 42 ∨ c.toNat = 45 ∨
    c.toNat = 46 ∨ c.toNat = 95 := by
  simp only [formSafe, Bool.or_eq_true, Bool.and_eq_true, decide_eq_true_eq] at h
  rcases h with ((((((⟨a, b⟩ | ⟨a, b⟩) | ⟨a, b⟩) | rfl) | rfl) | rfl) | rfl)
  · exact Or.inl ⟨a, b⟩
  · exact Or.inr (Or.inl ⟨a, b⟩)
  · exact Or.inr (Or.inr (Or.inl ⟨a, b⟩))
  · exact Or.inr (Or.inr (Or.inr (Or.inl rfl)))
  · exact Or.inr (Or.inr (Or.inr (Or.inr (Or.inl rfl))))
  · exact Or.inr (Or.inr (Or.inr (Or.inr (Or.inr (Or.inl rfl)))))
  · exact Or.inr (Or.inr (Or.inr (Or.inr (Or.inr (Or.inr rfl)))))

theorem formSafe_nat (c : Char) (h : formSafe c = true) :
    33 ≤ c.toNat ∧ c.toNat ≤ 126 ∧ c.toNat ≠ 34 ∧ c.toNat ≠ 35 ∧ c.toNat ≠ 38 ∧
    c.toNat ≠ 39 ∧ c.toNat ≠ 43 ∧ c.toNat ≠ 37 ∧ c.toNat ≠ 60 ∧ c.toNat ≠ 61 ∧
    c.toNat ≠ 62 ∧ c.toNat ≠ 63 := by
  rcases formSafe_codes c h with ⟨a, b⟩ | ⟨a, b⟩ | ⟨a, b⟩ | a | a | a | a <;> omega

theorem utf8Bytes_ascii (c : Char) (h : c.toNat < 128) : utf8Bytes c = [c.toNat] := by
  simp [utf8Bytes, h]

theorem formDecode_formEncode (s : List Char) (h : ∀ c ∈ s, c.toNat < 128) :
    formDecode (formEncode s) = s := by
  induction s with
  | nil => rfl
  | cons c l ih =>
    have hc := h c (by simp)
    rw [show formEncode (c :: l) = formEncodeChar c ++ formEncode l from rfl]
    by_cases hsafe : formSafe c = true
    · have hn := formSafe_nat c hsafe
      have e43 : ('+' : Char).toNat = 43 := rfl
      have e37 : ('%' : Char).toNat = 37 := rfl
      rw [show formEncodeChar c = [c] from by simp [formEncodeChar, hsafe]]
      rw [List.singleton_append]
      rw [formDecode_cons_safe c _ (char_ne_of_toNat _ _ (by omega))
        (char_ne_of_toNat _ _ (by omega))]
      rw [ih (fun x hx => h x (by simp [hx]))]
    · by_cases hsp : c = ' '
      · subst hsp
        rw [show formEncodeChar ' ' = ['+'] from rfl, List.singleton_append,
          formDecode_plus, ih (fun x hx => h x (by simp [hx]))]
      · rw [show formEncodeChar c = (utf8Bytes c).flatMap pctByte from by
          simp [formEncodeChar, hsafe, hsp]]
        rw [utf8Bytes_ascii c hc]
        rw [show ([c.toNat].flatMap pctByte) = pctByte c.toNat from by simp]
        rw [formDecode_pct c.toNat (by omega) (formEncode l)]
        rw [Char.ofNat_toNat, ih (fun x hx => h x (by simp [hx]))]

theorem parseAuthority_hostonly (sch host : String) (hh : hostOk host = true) :
    parseAuthority sch host.data = Except.ok (host, none) := by
  obtain ⟨hhne, hhchars⟩ := hostOk_parts host hh
  unfold parseAuthority
  rw [if_neg hhne]
  rw [splitLastColon_none host.data
    (fun c hc => (hostChar_facts c (hhchars c hc)).2.2)]
  simp only []
  rw [if_neg hhne]
  have hany : host.data.any forbiddenHostChar = false := by
    rw [List.any_eq_false]
    intro c hc
    rw [(hostChar_facts c (hhchars c hc)).2.1]
    simp
  rw [hany]
  simp

theorem schemeSplit_http' (rest : List Char) :
    schemeSplit (("http" : String).toList ++ [':', '/', '/'] ++ rest) = some ("http", rest) := by
  rw [show ("http" : String).toList ++ [':', '/', '/'] ++ rest = httpChars ++ rest from rfl]
  exact schemeSplit_http rest

theorem schemeSplit_https' (rest : List Char) :
    schemeSplit (("https" : String).toList ++ [':', '/', '/'] ++ rest) = some ("https", rest) := by
  rw [show ("https" : String).toList ++ [':', '/', '/'] ++ rest = httpsChars ++ rest from rfl]
  exact schemeSplit_https rest

theorem formEncodeChar_codes (c d : Char) (hd : d ∈ formEncodeChar c) :
    33 ≤ d.toNat ∧ d.toNat ≤ 126 ∧ d.toNat ≠ 34 ∧ d.toNat ≠ 35 ∧ d.toNat ≠ 38 ∧
    d.toNat ≠ 39 ∧ d.toNat ≠ 60 ∧ d.toNat ≠ 61 ∧ d.toNat ≠ 62 ∧ d.toNat ≠ 63 := by
  unfold formEncodeChar at hd
  by_cases hsafe : formSafe c = true
  · rw [if_pos hsafe] at hd
    simp at hd
    subst hd
    have hn := formSafe_nat _ hsafe
    omega
  · rw [if_neg hsafe] at hd
    by_cases hsp : c = ' '
    · rw [if_pos hsp] at hd
      simp at hd
      subst hd
      have e43 : ('+' : Char).toNat = 43 := rfl
      omega
    · rw [if_neg hsp] at hd
      rw [List.mem_flatMap] at hd
      obtain ⟨b, hb, hdb⟩ := hd
      have hb256 := utf8Bytes_lt256 c b hb
      rcases pctByte_codes b hb256 d hdb with h1 | ⟨h1, h2⟩ | ⟨h1, h2⟩ <;> omega

theorem formEncode_out (s : List Char) (d : Char) (hd : d ∈ formEncode s) :
    queryEncNeeded d = false ∧ d ≠ '&' ∧ d ≠ '=' ∧ d ≠ '#' ∧ d ≠ '?' := by
  rw [formEncode, List.mem_flatMap] at hd
  obtain ⟨c, hc, hdc⟩ := hd
  have h := formEncodeChar_codes c d hdc
  exact ⟨queryEncNeeded_false_of d (by omega) (by omega) (by omega),
    char_ne_of_toNat _ _ (by have : ('&' : Char).toNat = 38 := rfl; omega),
    char_ne_of_toNat _ _ (by have : ('=' : Char).toNat = 61 := rfl; omega),
    char_ne_of_toNat _ _ (by have : ('#' : Char).toNat = 35 := rfl; omega),
    char_ne_of_toNat _ _ (by have : ('?' : Char).toNat = 63 := rfl; omega)⟩

theorem pairsEncChars_out (ps : List (String × String)) (d : Char)
    (hd : d ∈ pairsEncChars ps) : queryEncNeeded d = false ∧ d ≠ '#' ∧ d ≠ '?' := by
  induction ps with
  | nil => cases hd
  | cons kv rest ih =>
    obtain ⟨k, v⟩ := kv
    cases rest with
    | nil =>
      rw [pairsEncChars.eq_def] at hd
      simp only [] at hd
      simp only [List.mem_append, List.mem_cons] at hd
      rcases hd with h | h | h
      · obtain ⟨h1, h2, h3, h4, h5⟩ := formEncode_out _ d h
        exact ⟨h1, h4, h5⟩
      · subst h
        decide
      · obtain ⟨h1, h2, h3, h4, h5⟩ := formEncode_out _ d h
        exact ⟨h1, h4, h5⟩
    | cons kv2 rest2 =>
      rw [pairsEncChars.eq_def] at hd
      simp only [] at hd
      simp only [List.mem_append, List.mem_cons] at hd
      rcases hd with (h | h | h) | h | h
      · obtain ⟨h1, h2, h3, h4, h5⟩ := formEncode_out _ d h
        exact ⟨h1, h4, h5⟩
      · subst h
        decide
      · obtain ⟨h1, h2, h3, h4, h5⟩ := formEncode_out _ d h
        exact ⟨h1, h4, h5⟩
      · subst h
        decide
      · exact ih h

theorem map_id_of_mem {α : Type} (f : α → α) :
    ∀ l : List α, (∀ a ∈ l, f a = a) → l.map f = l := by
  intro l
  induction l with
  | nil => intro _; rfl
  | cons a t ih =>
    intro h
    rw [List.map_cons, h a (by simp), ih (fun x hx => h x (by simp [hx]))]

theorem map_mk_toList :
    ∀ l : List String, (l.map String.toList).map (fun x => String.mk x) = l := by
  intro l
  induction l with
  | nil => rfl
  | cons s t ih =>
    rw [List.map_cons, List.map_cons, ih]
    rfl

theorem parseAfterScheme_reparse (sch host : String) (po : Option String)
    (segs : List String) (q : String)
    (hh : hostOk host = true)
    (hpo : po = none ∨ ∃ p, po = some p ∧ portOk p = true ∧
      canonPortStr sch p.toList = Except.ok (some p))
    (hne : segs ≠ [])
    (hchars : ∀ s ∈ segs, ∀ c ∈ s.toList,
      pathEncNeeded c = false ∧ c ≠ '/' ∧ c ≠ '\\' ∧ c ≠ '?' ∧ c ≠ '#')
    (hdots : ∀ s ∈ segs, isSingleDotSeg s.toList = false ∧ isDoubleDotSeg s.toList = false)
    (hq : ∀ c ∈ q.toList, queryEncNeeded c = false ∧ c ≠ '#') :
    parseAfterScheme sch
      (host.data ++ portChars po ++
        '/' :: (joinSegsChars (segs.map String.toList) ++ '?' :: q.data)) =
      Except.ok ⟨sch, host, po, segs, some q, none⟩ := by
  obtain ⟨hhne, hhchars⟩ := hostOk_parts host hh
  have hsegsL : ∀ s ∈ segs.map String.toList, ∀ c ∈ s, c ≠ '/' ∧ c ≠ '\\' := by
    intro s hs c hc
    obtain ⟨x, hx, rfl⟩ := List.mem_map.mp hs
    exact ⟨(hchars x hx c hc).2.1, (hchars x hx c hc).2.2.1⟩
  have hJ : ∀ c ∈ joinSegsChars (segs.map String.toList), c ≠ '?' ∧ c ≠ '#' := by
    intro c hc
    rcases joinSegsChars_chars _ c hc with ⟨s, hs, hcs⟩ | rfl
    · obtain ⟨x, hx, rfl⟩ := List.mem_map.mp hs
      exact ⟨(hchars x hx c hcs).2.2.2.1, (hchars x hx c hcs).2.2.2.2⟩
    · exact ⟨by decide, by decide⟩
  have hpdig : ∀ c ∈ portChars po, (!authDelim c) = true := by
    rcases hpo with rfl | ⟨p, rfl, hpok, _⟩
    · intro c hc
      cases hc
    · obtain ⟨_, hdig, _, _⟩ := portOk_parts p hpok
      intro c hc
      rcases List.mem_cons.mp hc with rfl | h2
      · decide
      · simp [(isDigitB_facts c (hdig c h2)).1]
  have hauthA : ∀ c ∈ host.data ++ portChars po, (!authDelim c) = true := by
    intro c hc
    rcases List.mem_append.mp hc with h | h
    · simp [(hostChar_facts c (hhchars c h)).1]
    · exact hpdig c h
  have hpa : parseAuthority sch (host.data ++ portChars po) = Except.ok (host, po) := by
    rcases hpo with rfl | ⟨p, rfl, hpok, hcps⟩
    · rw [show portChars (none : Option String) = [] from rfl, List.append_nil]
      exact parseAuthority_hostonly sch host hh
    · rw [show portChars (some p) = ':' :: p.data from rfl]
      rw [parseAuthority_hostport sch host p hh hpok]
      have hcp : canonPort sch p = some p := by
        unfold canonPort
        rw [hcps]
      rw [hcp]
  have hgroup : host.data ++ portChars po ++
      '/' :: (joinSegsChars (segs.map String.toList) ++ '?' :: q.data) =
      (host.data ++ portChars po) ++
        (('/' :: joinSegsChars (segs.map String.toList)) ++ '?' :: q.data) := by
    simp
  have hnohash : ∀ c ∈ ('/' :: joinSegsChars (segs.map String.toList)) ++ '?' :: q.data,
      c ≠ '#' := by
    intro c hc
    rcases List.mem_append.mp hc with h | h
    · rcases List.mem_cons.mp h with rfl | h2
      · decide
      · exact (hJ c h2).2
    · rcases List.mem_cons.mp h with rfl | h2
      · decide
      · exact (hq c h2).2
  have hnoq : ∀ c ∈ '/' :: joinSegsChars (segs.map String.toList), c ≠ '?' := by
    intro c hc
    rcases List.mem_cons.mp hc with rfl | h2
    · decide
    · exact (hJ c h2).1
  simp only [parseAfterScheme]
  rw [hgroup, takeWhile_append_all _ _ _ hauthA, dropWhile_append_all _ _ _ hauthA]
  rw [show List.takeWhile (fun c => !authDelim c)
      (('/' :: joinSegsChars (segs.map String.toList)) ++ '?' :: q.data) = [] from rfl]
  rw [show List.dropWhile (fun c => !authDelim c)
      (('/' :: joinSegsChars (segs.map String.toList)) ++ '?' :: q.data) =
      ('/' :: joinSegsChars (segs.map String.toList)) ++ '?' :: q.data from rfl]
  rw [List.append_nil, hpa]
  simp only []
  rw [splitFirst_none '#' _ hnohash]
  simp only []
  rw [splitFirst_mark '?' ('/' :: joinSegsChars (segs.map String.toList)) q.data hnoq]
  simp only []
  rw [splitSegs_join (segs.map String.toList) (by simpa using hne) hsegsL]
  rw [map_id_of_mem pathEncSeg (segs.map String.toList)
    (fun s hs => pathEncSeg_id s (by
      obtain ⟨x, hx, rfl⟩ := List.mem_map.mp hs
      exact fun c hc => (hchars x hx c hc).1))]
  rw [removeDotSegs_id (segs.map String.toList) []
    (fun s hs => by
      obtain ⟨x, hx, rfl⟩ := List.mem_map.mp hs
      exact hdots x hx)]
  simp only [List.reverse_nil, List.nil_append]
  rw [map_mk_toList segs]
  simp only [Option.map]
  rw [queryFlat_id q.data (fun c hc => (hq c hc).1)]

theorem parseUrl_serialize (sch host : String) (po : Option String) (segs : List String)
    (q : String)
    (hs : sch = "http" ∨ sch = "https")
    (hh : hostOk host = true)
    (hpo : po = none ∨ ∃ p, po = some p ∧ portOk p = true ∧
      canonPortStr sch p.toList = Except.ok (some p))
    (hne : segs ≠ [])
    (hchars : ∀ s ∈ segs, ∀ c ∈ s.toList,
      pathEncNeeded c = false ∧ c ≠ '/' ∧ c ≠ '\\' ∧ c ≠ '?' ∧ c ≠ '#')
    (hdots : ∀ s ∈ segs, isSingleDotSeg s.toList = false ∧ isDoubleDotSeg s.toList = false)
    (hq : ∀ c ∈ q.toList, queryEncNeeded c = false ∧ c ≠ '#') :
    parseUrl (Url.serialize ⟨sch, host, po, segs, some q, none⟩) =
      Except.ok ⟨sch, host, po, segs, some q, none⟩ := by
  unfold parseUrl parseUrlChars
  rcases hs with rfl | rfl
  · have hdata : (Url.serialize ⟨"http", host, po, segs, some q, none⟩).toList =
        httpChars ++ (host.data ++ portChars po ++
          '/' :: (joinSegsChars (segs.map String.toList) ++ '?' :: q.data)) := by
      show ("http" : String).data ++ [':', '/', '/'] ++ host.data ++ portChars po ++
        '/' :: joinSegsChars (segs.map String.toList) ++ ('?' :: q.data) ++ [] = _
      rw [show httpChars = ['h', 't', 't', 'p', ':', '/', '/'] from rfl]
      rw [show ("http" : String).data = ['h', 't', 't', 'p'] from rfl]
      simp
    rw [hdata, schemeSplit_http]
    exact parseAfterScheme_reparse "http" host po segs q hh
      (by
        rcases hpo with h | h
        · exact Or.inl h
        · exact Or.inr h) hne hchars hdots hq
  · have hdata : (Url.serialize ⟨"https", host, po, segs, some q, none⟩).toList =
        httpsChars ++ (host.data ++ portChars po ++
          '/' :: (joinSegsChars (segs.map String.toList) ++ '?' :: q.data)) := by
      show ("https" : String).data ++ [':', '/', '/'] ++ host.data ++ portChars po ++
        '/' :: joinSegsChars (segs.map String.toList) ++ ('?' :: q.data) ++ [] = _
      rw [show httpsChars = ['h', 't', 't', 'p', 's', ':', '/', '/'] from rfl]
      rw [show ("https" : String).data = ['h', 't', 't', 'p', 's'] from rfl]
      simp
    rw [hdata, schemeSplit_https]
    exact parseAfterScheme_reparse "https" host po segs q hh
      (by
        rcases hpo with h | h
        · exact Or.inl h
        · exact Or.inr h) hne hchars hdots hq

theorem canonPort_cases (sch port : String) (hp : portOk port = true) :
    canonPort sch port = none ∨
    (canonPort sch port = some port ∧
      canonPortStr sch port.toList = Except.ok (some port)) := by
  obtain ⟨n, hn, hb, hcps⟩ := canonPortStr_eval sch port hp
  by_cases hcond : ((sch = "http" && n = 80) || (sch = "https" && n = 443)) = true
  · rw [if_pos hcond] at hcps
    left
    unfold canonPort
    rw [hcps]
  · rw [if_neg hcond] at hcps
    right
    refine ⟨?_, hcps⟩
    unfold canonPort
    rw [hcps]

theorem relSegsChars_ne_nil (cs : List Char) : relSegsChars cs ≠ [] := by
  unfold relSegsChars
  intro h
  rw [List.map_eq_nil_iff] at h
  exact removeDotSegs_ne_nil ((splitSegs cs).map pathEncSeg) []
    (by simp [splitSegs_ne_nil cs]) h

theorem relSegsChars_chars (cs : List Char) (hcs : ∀ c ∈ cs, c ≠ '?' ∧ c ≠ '#') :
    ∀ s ∈ relSegsChars cs, ∀ c ∈ s.toList,
      pathEncNeeded c = false ∧ c ≠ '/' ∧ c ≠ '\\' ∧ c ≠ '?' ∧ c ≠ '#' := by
  intro s hs c hc
  unfold relSegsChars at hs
  obtain ⟨l, hl, rfl⟩ := List.mem_map.mp hs
  have hcl : c ∈ l := hc
  rcases removeDotSegs_mem _ [] l hl with h | h | h
  · cases h
  · subst h
    cases hcl
  · obtain ⟨raw, hraw, rfl⟩ := List.mem_map.mp h
    unfold pathEncSeg at hcl
    rw [List.mem_flatMap] at hcl
    obtain ⟨c0, hc0, hcc0⟩ := hcl
    obtain ⟨hin, h1, h2⟩ := splitSegs_chars cs raw hraw c0 hc0
    exact pathEncChar_out c0 c ⟨h1, h2, (hcs c0 hin).1, (hcs c0 hin).2⟩ hcc0

theorem relSegsChars_nodot (cs : List Char) :
    ∀ s ∈ relSegsChars cs,
      isSingleDotSeg s.toList = false ∧ isDoubleDotSeg s.toList = false := by
  intro s hs
  unfold relSegsChars at hs
  obtain ⟨l, hl, rfl⟩ := List.mem_map.mp hs
  exact removeDotSegs_nodot _ [] (by intro x hx; cases hx) l hl

theorem pairOfPiece_enc (k v : String) (hk : formEncode k.toList = k.toList)
    (hkchars : ∀ c ∈ k.toList, (fun c => decide (c ≠ '=')) c = true)
    (hkdec : formDecode k.toList = k.toList)
    (hv : ∀ c ∈ v.toList, c.toNat < 128) :
    pairOfPiece (formEncode k.toList ++ '=' :: formEncode v.toList) = (k, v) := by
  rw [hk]
  unfold pairOfPiece
  rw [takeWhile_append_all _ _ _ hkchars, dropWhile_append_all _ _ _ hkchars]
  rw [show List.takeWhile (fun c => decide (c ≠ '='))
      ('=' :: formEncode v.toList) = [] from rfl]
  rw [show List.dropWhile (fun c => decide (c ≠ '='))
      ('=' :: formEncode v.toList) = '=' :: formEncode v.toList from rfl]
  rw [List.append_nil]
  show ((⟨formDecode k.toList⟩ : String),
    (⟨formDecode (List.drop 1 ('=' :: formEncode v.toList))⟩ : String)) = (k, v)
  rw [show List.drop 1 ('=' :: formEncode v.toList) = formEncode v.toList from rfl]
  rw [hkdec, formDecode_formEncode v.toList hv]
  rfl

theorem queryPairs_two (u : Url) (tenant db : String)
    (hu : u.query = some (pairsEncode [("tenant", tenant), ("database", db)]))
    (ht : asciiStr tenant = true) (hd : asciiStr db = true) :
    u.queryPairs = [("tenant", tenant), ("database", db)] := by
  have hvt : ∀ c ∈ tenant.toList, c.toNat < 128 := by
    simp only [asciiStr, List.all_eq_true, decide_eq_true_eq] at ht
    exact ht
  have hvd : ∀ c ∈ db.toList, c.toNat < 128 := by
    simp only [asciiStr, List.all_eq_true, decide_eq_true_eq] at hd
    exact hd
  have hno1 : ∀ c ∈ formEncode ("tenant" : String).toList ++
      '=' :: formEncode tenant.toList, c ≠ '&' := by
    intro c hc
    rcases List.mem_append.mp hc with h | h
    · exact (formEncode_out _ c h).2.1
    · rcases List.mem_cons.mp h with rfl | h2
      · decide
      · exact (formEncode_out _ c h2).2.1
  have hno2 : ∀ c ∈ formEncode ("database" : String).toList ++
      '=' :: formEncode db.toList, c ≠ '&' := by
    intro c hc
    rcases List.mem_append.mp hc with h | h
    · exact (formEncode_out _ c h).2.1
    · rcases List.mem_cons.mp h with rfl | h2
      · decide
      · exact (formEncode_out _ c h2).2.1
  unfold Url.queryPairs
  rw [hu]
  simp only []
  have htl : (pairsEncode [("tenant", tenant), ("database", db)]).toList =
      (formEncode ("tenant" : String).toList ++ '=' :: formEncode tenant.toList) ++
      '&' :: (formEncode ("database" : String).toList ++ '=' :: formEncode db.toList) := by
    show pairsEncChars [("tenant", tenant), ("database", db)] = _
    rw [pairsEncChars.eq_def]
    simp only []
    rw [pairsEncChars.eq_def]
  rw [htl]
  rw [splitAmp_append _ _ hno1]
  rw [splitAmp_noamp _ hno2]
  rw [List.filter_cons_of_pos (by simp),
    List.filter_cons_of_pos (by simp), List.filter_nil]
  rw [List.map_cons, List.map_cons, List.map_nil]
  rw [pairOfPiece_enc "tenant" tenant rfl (by decide) rfl hvt]
  rw [pairOfPiece_enc "database" db rfl (by decide) rfl hvd]

/-- C6 (amended): for a client built from a well-formed host (lower-case
ASCII letters, digits, `-`, `.`), a well-formed port, an ssl flag, optional
headers, an ASCII tenant/database override, and a relative path free of `?`
and `#`, the scoped URL builder (`get_url_with_params`) succeeds; the
produced URL's query parameters are exactly the context's tenant and
database and nothing else, and parsing the URL's serialization recovers the
identical URL value — same path segments and same parameter values
(round-trip).  The amendment restricts the spec's "every relative path" to
paths without `?`/`#`, which the unamended claim fails on
(`C6_counterexample`). -/
theorem C6_scoped_roundtrip (host port rel tenant db : String) (ssl : Bool)
    (hdrs : Option HeaderMap)
    (hh : hostOk host = true) (hp : portOk port = true) (hr : relOk rel = true)
    (ht : asciiStr tenant = true) (hd : asciiStr db = true) :
    ChromaClient.get_url_with_params
        (ChromaClient.new ⟨host, port, ssl, hdrs, some ⟨tenant, db⟩⟩) rel =
      Except.ok (scopedUrl ssl host port rel tenant db) ∧
    (scopedUrl ssl host port rel tenant db).queryPairs =
      [("tenant", tenant), ("database", db)] ∧
    parseUrl (scopedUrl ssl host port rel tenant db).serialize =
      Except.ok (scopedUrl ssl host port rel tenant db) := by
  have hs : (if ssl then "https" else "http") = "http" ∨
      (if ssl then "https" else "http") = "https" := by
    cases ssl
    · exact Or.inl rfl
    · exact Or.inr rfl
  refine ⟨?_, ?_, ?_⟩
  · unfold ChromaClient.get_url_with_params
    have hpath : (ChromaClient.new ⟨host, port, ssl, hdrs, some ⟨tenant, db⟩⟩).path
        ++ "/" ++ rel =
        (if ssl then "https" else "http") ++ "://" ++ host ++ ":" ++ port ++ "/" ++ rel :=
      rfl
    rw [hpath, parseUrl_origin _ host port rel hs hh hp hr]
    rfl
  · exact queryPairs_two _ tenant db rfl ht hd
  · have hchars := relSegsChars_chars rel.data (relOk_parts rel hr)
    have hdots := relSegsChars_nodot rel.data
    have hne := relSegsChars_ne_nil rel.data
    have hqc : ∀ c ∈ (pairsEncode [("tenant", tenant), ("database", db)]).toList,
        queryEncNeeded c = false ∧ c ≠ '#' := by
      intro c hc
      exact ⟨(pairsEncChars_out _ c hc).1, (pairsEncChars_out _ c hc).2.1⟩
    have hpo : canonPort (if ssl then "https" else "http") port = none ∨
        ∃ p, canonPort (if ssl then "https" else "http") port = some p ∧
          portOk p = true ∧
          canonPortStr (if ssl then "https" else "http") p.toList =
            Except.ok (some p) := by
      rcases canonPort_cases (if ssl then "https" else "http") port hp with h | ⟨h1, h2⟩
      · exact Or.inl h
      · exact Or.inr ⟨port, h1, hp, h2⟩
    exact parseUrl_serialize (if ssl then "https" else "http") host
      (canonPort (if ssl then "https" else "http") port) (relSegs rel)
      (pairsEncode [("tenant", tenant), ("database", db)]) hs hh hpo hne hchars hdots hqc

/-- C6, witness: the round-trip at the default connection context and the
collections path. -/
theorem C6_scoped_roundtrip_witness :
    hostOk "localhost" = true ∧ portOk "8000" = true ∧
    relOk "api/v1/collections" = true ∧
    asciiStr "default_tenant" = true ∧ asciiStr "default_database" = true ∧
    (ChromaClient.get_url_with_params
        (ChromaClient.new ⟨"localhost", "8000", false, none,
          some ⟨"default_tenant", "default_database"⟩⟩) "api/v1/collections" =
      Except.ok (scopedUrl false "localhost" "8000" "api/v1/collections"
        "default_tenant" "default_database") ∧
     (scopedUrl false "localhost" "8000" "api/v1/collections"
        "default_tenant" "default_database").queryPairs =
      [("tenant", "default_tenant"), ("database", "default_database")] ∧
     parseUrl (scopedUrl false "localhost" "8000" "api/v1/collections"
        "default_tenant" "default_database").serialize =
      Except.ok (scopedUrl false "localhost" "8000" "api/v1/collections"
        "default_tenant" "default_database")) :=
  ⟨by decide, by decide, by decide, by decide, by decide,
   C6_scoped_roundtrip "localhost" "8000" "api/v1/collections" "default_tenant"
     "default_database" false none (by decide) (by decide) (by decide) (by decide)
     (by decide)⟩

/-- C8: `heartbeat` first runs the pre-flight gate, then issues exactly one
further request: an unscoped GET (no query parameters) to path
`api/v1/heartbeat` with no body and the client's default headers; when the
transport answers with a JSON object whose `"nanosecond heartbeat"` field
holds an integer in `u64` range, it returns that integer.  (The source
decodes the body without inspecting the status, so no status hypothesis is
needed.) -/
theorem C8_heartbeat_spec (t : Transport) (c : ChromaClient) (sch host port : String)
    (plog : List Request) (fs : List (String × Json)) (st : Nat) (n : Int)
    (hs : sch = "http" ∨ sch = "https") (hh : hostOk host = true)
    (hp : portOk port = true)
    (hcpath : c.path = sch ++ "://" ++ host ++ ":" ++ port)
    (hpre : ChromaClient.check_pre_flight_status t c = (plog, Except.ok ()))
    (ht : t ⟨Method.GET,
        ⟨sch, host, canonPort sch port, ["api", "v1", "heartbeat"], none, none⟩,
        c.headers, none⟩ =
      Except.ok ⟨st, Except.ok (Json.obj fs)⟩)
    (hfield : getFieldStrict fs "nanosecond heartbeat" = Except.ok (Json.num n))
    (hn : 0 ≤ n ∧ n < (2 : Int) ^ 64) :
    ChromaClient.heartbeat t c =
      (plog ++
        [⟨Method.GET,
          ⟨sch, host, canonPort sch port, ["api", "v1", "heartbeat"], none, none⟩,
          c.headers, none⟩],
       Except.ok n.toNat) := by
  have hget : ChromaClient.get_url c "api/v1/heartbeat" =
      Except.ok ⟨sch, host, canonPort sch port, ["api", "v1", "heartbeat"], none, none⟩ := by
    unfold ChromaClient.get_url
    rw [hcpath]
    rw [parseUrl_origin sch host port "api/v1/heartbeat" hs hh hp (by decide)]
    rw [show relSegs "api/v1/heartbeat" = ["api", "v1", "heartbeat"] from rfl]
  unfold ChromaClient.heartbeat
  rw [hpre]
  simp only []
  rw [hget]
  simp only []
  rw [ht]
  simp only []
  simp only [HeartbeatResponse.from_json]
  rw [hfield]
  simp only [jsonAsU64]
  rw [if_pos hn]

/-- C8, witness: the heartbeat call against a transport that serves
`{"nanosecond heartbeat": 123456789}` on the heartbeat path. -/
theorem C8_heartbeat_spec_witness :
    ChromaClient.check_pre_flight_status tHeartbeat clientA =
      ([preReqA], Except.ok ()) ∧
    getFieldStrict [("nanosecond heartbeat", Json.num 123456789)]
      "nanosecond heartbeat" = Except.ok (Json.num 123456789) ∧
    ChromaClient.heartbeat tHeartbeat clientA =
      ([preReqA,
        ⟨Method.GET,
         ⟨"http", "localhost", canonPort "http" "8000",
          ["api", "v1", "heartbeat"], none, none⟩,
         clientA.headers, none⟩],
       Except.ok (Int.toNat 123456789)) :=
  ⟨rfl, rfl,
   C8_heartbeat_spec tHeartbeat clientA "http" "localhost" "8000" [preReqA]
     [("nanosecond heartbeat", Json.num 123456789)] 200 123456789
     (Or.inl rfl) (by decide) (by decide) rfl rfl rfl rfl (by decide)⟩

end Chroma
